import Mathlib

/-!
Shallow embedding of the curves draw-cache module
(`draw_cache_impl_curves.cc`, namespace `blender::draw`).

GPU vertex/index buffers and batches are modelled by a `Bool` recording
whether the slot currently holds a live allocation (`true`) or is null
(`false`); the per-slot attribute arrays `proc_attributes_buf` /
`final.attributes_buf` are modelled as functions `Nat → Bool`.  Buffer
contents relevant to the claims (the position/parameter VBO and the line
index buffers) are modelled separately as pure functions producing lists,
mirroring the fill loops of the source.

Allocation and release actions performed against the GPU API are recorded
in an explicit event log (`GpuEvent`) by the functions whose claims talk
about "discarding" and "allocating" (attribute reconciliation), so that a
call that leaves the cache unchanged and performs no GPU action is exactly
a call returning an empty event list.
-/

namespace CurvesDraw

/-- Attribute domain (`bke::AttrDomain`) as used in this file: per-point or
per-curve storage. -/
inductive AttrDomain
  | Point
  | Curve
deriving DecidableEq

/-- One attribute request (`DRW_AttributeRequest` of `draw_attributes.hh`):
attribute name, custom-data type, source layer index and domain. -/
structure DRW_AttributeRequest where
  attribute_name : String
  cd_type : Nat
  layer_index : Int
  domain : AttrDomain
deriving DecidableEq

/-- Modelled from the spec: `DRW_Attributes` (declared in
`draw_attributes.hh`, not part of this excerpt) is "a small ordered
collection of (name, type, domain, source-layer) tuples with set-equality
and merge operations". -/
structure DRW_Attributes where
  requests : List DRW_AttributeRequest
deriving DecidableEq

/-- Number of requests in the collection (`num_requests`). -/
def DRW_Attributes.num_requests (a : DRW_Attributes) : Nat :=
  a.requests.length

/-- Modelled from the spec: `drw_attributes_overlap a b` tests that every
request of `b` is already present in `a` — the reconciliation guard reads
"if the new set is not a subset of the current set (some requested
attribute is missing)". -/
def drw_attributes_overlap (a b : DRW_Attributes) : Bool :=
  b.requests.all (fun r => decide (r ∈ a.requests))

/-- Modelled from the spec: `drw_attributes_merge` is the set-union keeping
the order of `a` and appending the requests of `b` not yet present. -/
def drw_attributes_merge (a b : DRW_Attributes) : DRW_Attributes :=
  ⟨a.requests ++ b.requests.filter (fun r => decide (r ∉ a.requests))⟩

/-- Modelled from the spec: `drw_attributes_clear` resets the collection to
the empty set. -/
def drw_attributes_cleared : DRW_Attributes := ⟨[]⟩

/-- Modelled from the spec: `GPU_MAX_ATTR`, the number of attribute slots
per tier (`attributeTier[0..MAX_ATTR)`). The concrete value is irrelevant
to the claims. -/
def GPU_MAX_ATTR : Nat := 15

/-- Final (device-resolution) tier of the evaluation cache
(`CurvesEvalFinalCache`). Buffers are `true` when allocated. -/
structure CurvesEvalFinalCache where
  proc_buf : Bool
  proc_hairs : Bool
  attributes_buf : Nat → Bool
  attr_used : DRW_Attributes
  attr_used_over_time : DRW_Attributes
  last_attr_matching_time : Int
  hair_subdiv : Int
  thickres : Int
  resolution : Nat

/-- Evaluation cache (`CurvesEvalCache`): topology-tier buffers, the
control-point attribute slots and the final tier. -/
structure CurvesEvalCache where
  proc_point_buf : Bool
  proc_length_buf : Bool
  proc_strand_buf : Bool
  proc_strand_seg_buf : Bool
  proc_attributes_buf : Nat → Bool
  final : CurvesEvalFinalCache
  points_num : Nat
  curves_num : Nat

/-- Batch cache attached to a `Curves` geometry (`CurvesBatchCache`). -/
structure CurvesBatchCache where
  eval_cache : CurvesEvalCache
  edit_points : Bool
  edit_handles : Bool
  sculpt_cage : Bool
  sculpt_cage_ibo : Bool
  edit_points_pos : Bool
  edit_points_data : Bool
  edit_points_selection : Bool
  edit_handles_ibo : Bool
  edit_curves_lines : Bool
  edit_curves_lines_pos : Bool
  edit_curves_lines_ibo : Bool
  is_dirty : Bool

/-- Value initialization `eval_cache = {}`: all buffers null, empty request
sets, zeroed settings. -/
def emptyFinalCache : CurvesEvalFinalCache :=
  ⟨false, false, fun _ => false, drw_attributes_cleared, drw_attributes_cleared, 0, 0, 0, 0⟩

/-- Value initialization of the whole evaluation cache. -/
def emptyEvalCache : CurvesEvalCache :=
  ⟨false, false, false, false, fun _ => false, emptyFinalCache, 0, 0⟩

/-- Cache object as produced by `MEM_new<CurvesBatchCache>` (value
initialization: every pointer null, `is_dirty` false). -/
def freshBatchCache : CurvesBatchCache :=
  ⟨emptyEvalCache, false, false, false, false, false, false, false, false,
   false, false, false, false⟩

/-- Function `discard_attributes`: frees every control-point and final
attribute slot and clears `attr_used` (state effect). -/
def discard_attributes (e : CurvesEvalCache) : CurvesEvalCache :=
  { e with
    proc_attributes_buf := fun i =>
      if i < GPU_MAX_ATTR then false else e.proc_attributes_buf i,
    final := { e.final with
      attributes_buf := fun j =>
        if j < GPU_MAX_ATTR then false else e.final.attributes_buf j,
      attr_used := drw_attributes_cleared } }

/-- Function `clear_final_data`: frees the final-tier position buffer, the
batch and every final attribute slot. -/
def clear_final_data (f : CurvesEvalFinalCache) : CurvesEvalFinalCache :=
  { f with
    proc_buf := false,
    proc_hairs := false,
    attributes_buf := fun j =>
      if j < GPU_MAX_ATTR then false else f.attributes_buf j }

/-- Function `clear_eval_data`: frees the topology-tier buffers, then the
final tier, then the attribute slots. -/
def clear_eval_data (e : CurvesEvalCache) : CurvesEvalCache :=
  discard_attributes
    { e with
      proc_point_buf := false,
      proc_length_buf := false,
      proc_strand_buf := false,
      proc_strand_seg_buf := false,
      final := clear_final_data e.final }

/-- Function `clear_edit_data`: frees every edit-mode buffer and batch. -/
def clear_edit_data (c : CurvesBatchCache) : CurvesBatchCache :=
  { c with
    edit_points_pos := false,
    edit_points_data := false,
    edit_points_selection := false,
    edit_handles_ibo := false,
    edit_points := false,
    edit_handles := false,
    sculpt_cage_ibo := false,
    sculpt_cage := false,
    edit_curves_lines_pos := false,
    edit_curves_lines_ibo := false,
    edit_curves_lines := false }

/-- Function `clear_batch_cache`: no-op when the geometry has no cache,
otherwise clears the eval data and the edit data. -/
def clear_batch_cache : Option CurvesBatchCache → Option CurvesBatchCache
  | none => none
  | some c => some (clear_edit_data { c with eval_cache := clear_eval_data c.eval_cache })

/-- Function `init_batch_cache`: allocates a fresh cache object when none
exists, otherwise resets `eval_cache = {}`; then sets `is_dirty = false`. -/
def init_batch_cache : Option CurvesBatchCache → Option CurvesBatchCache
  | none => some freshBatchCache
  | some c => some { c with eval_cache := emptyEvalCache, is_dirty := false }

/-- Function `batch_cache_is_dirty`: returns `cache && cache->is_dirty == false`
(note the source's inverted naming: it is true when the cache exists and is
NOT dirty). -/
def batch_cache_is_dirty : Option CurvesBatchCache → Bool
  | none => false
  | some c => c.is_dirty == false

/-- Function `DRW_curves_batch_cache_validate`: when the cache is missing or
dirty, clear it and reinitialize it. -/
def DRW_curves_batch_cache_validate (c : Option CurvesBatchCache) :
    Option CurvesBatchCache :=
  if ¬ batch_cache_is_dirty c then init_batch_cache (clear_batch_cache c) else c

/-- Constant `BKE_CURVES_BATCH_DIRTY_ALL` (the single member of the dirty
mode enum used here). -/
def BKE_CURVES_BATCH_DIRTY_ALL : Int := 0

/-- Function `DRW_curves_batch_cache_dirty_tag`: early-out when no cache is
attached; mode ALL sets the dirty flag; any other mode hits
`BLI_assert_unreachable`, modelled as a fatal `Except.error`. -/
def DRW_curves_batch_cache_dirty_tag (c : Option CurvesBatchCache) (mode : Int) :
    Except Unit (Option CurvesBatchCache) :=
  match c with
  | none => Except.ok none
  | some cache =>
      if mode = BKE_CURVES_BATCH_DIRTY_ALL then
        Except.ok (some { cache with is_dirty := true })
      else
        Except.error ()

/-! Line-strip index buffers (`create_lines_ibo_no_cyclic`,
`create_lines_ibo_with_cyclic` and the `VArray` dispatcher).  A curve set is
given by the list of per-curve point counts (`points_by_curve`: curve `c`
starts at the sum of the counts before it) and the per-curve cyclic flags.
The index buffer is the list of written slots in ascending slot order; the
parallel fill writes each curve's range `IndexRange(points.start + curve*k,
points.size + k)` disjointly, so the per-curve blocks tile the buffer in
curve order. -/

/-- Primitive-restart sentinel (`gpu::RESTART_INDEX`, the maximum 32-bit
index value). -/
def RESTART_INDEX : Nat := 4294967295

/-- Fill loop of `create_lines_ibo_no_cyclic` starting at global point
index `start`: per curve, the point indices then one restart slot. -/
def linesIboNoCyclicFrom (start : Nat) : List Nat → List Nat
  | [] => []
  | n :: rest =>
      ((List.range n).map (fun i => start + i) ++ [RESTART_INDEX]) ++
        linesIboNoCyclicFrom (start + n) rest

/-- Function `create_lines_ibo_no_cyclic` on the per-curve point counts. -/
def create_lines_ibo_no_cyclic (sizes : List Nat) : List Nat :=
  linesIboNoCyclicFrom 0 sizes

/-- Fill loop of `create_lines_ibo_with_cyclic` (the `Span<bool>` overload):
per curve, the point indices, then the loop-closing slot (the curve's first
point when cyclic, else a restart), then one restart slot. -/
def linesIboWithCyclicFrom (start : Nat) : List Nat → List Bool → List Nat
  | [], _ => []
  | _ :: _, [] => []
  | n :: rest, b :: bs =>
      ((List.range n).map (fun i => start + i) ++
        [if b then start else RESTART_INDEX, RESTART_INDEX]) ++
        linesIboWithCyclicFrom (start + n) rest bs

/-- Function `create_lines_ibo_with_cyclic` on counts and cyclic flags. -/
def create_lines_ibo_with_cyclic (sizes : List Nat) (cyclic : List Bool) : List Nat :=
  linesIboWithCyclicFrom 0 sizes cyclic

/-- Modelled from the spec: the dispatcher's guard "scan all cyclic flags;
if none are true, use the cheaper non-cyclic variant"
(`array_utils::booleans_mix_calc(cyclic) == BooleanMix::AllFalse`;
`BLI_array_utils` is outside this excerpt). -/
def no_cyclic_flag (cyclic : List Bool) : Bool :=
  cyclic.all (fun b => b == false)

/-- The `VArray` overload of `create_lines_ibo_with_cyclic`: dispatch to the
non-cyclic builder when no curve is cyclic. -/
def create_lines_ibo_dispatch (sizes : List Nat) (cyclic : List Bool) : List Nat :=
  if no_cyclic_flag cyclic then create_lines_ibo_no_cyclic sizes
  else create_lines_ibo_with_cyclic sizes cyclic

/-- Transformation deleting, for each curve in order, the loop-closing slot
of its block in a cyclic-aware index buffer (the second-to-last slot of the
curve's `n+2`-wide range, i.e. local index `n`). -/
def eraseLoopSlots : List Nat → List Nat → List Nat
  | [], ibo => ibo
  | n :: rest, ibo =>
      ((ibo.take (n + 2)).eraseIdx n) ++ eraseLoopSlots rest (ibo.drop (n + 2))

/-! Position-and-parameter VBO fill (`fill_points_position_time_vbo`).
Positions live in an arbitrary type `α` and the Euclidean metric
`math::distance` is a parameter `dist : α → α → ℚ`; the loop is per curve:
accumulate `total_len` over consecutive points, store the running total as
the raw parameter, store `total_len` as the curve's hair length, then, when
`total_len > 0`, rescale every parameter by `1 / total_len`.  Floating
point arithmetic is idealized as exact rational arithmetic. -/

/-- One curve record of the `posTime` buffer. -/
structure PositionAndParameter (α : Type) where
  position : α
  parameter : ℚ

/-- Running totals written after the curve's first point: at each point the
total grows by the distance from the previous point. -/
def cumFrom {α : Type} (dist : α → α → ℚ) (prev : α) (total : ℚ) :
    List α → List ℚ
  | [] => []
  | p :: rest => (total + dist prev p) :: cumFrom dist p (total + dist prev p) rest

/-- Raw (unscaled) per-point parameters of one curve: the first point gets
0, later points the cumulative arclength. -/
def cumulative_params {α : Type} (dist : α → α → ℚ) : List α → List ℚ
  | [] => []
  | p :: rest => 0 :: cumFrom dist p 0 rest

/-- Total arclength of a curve: the sum of the distances between
consecutive points. -/
def total_arclength {α : Type} (dist : α → α → ℚ) (ps : List α) : ℚ :=
  (List.zipWith dist ps ps.tail).sum

/-- Per-curve body of `fill_points_position_time_vbo`: the `posTime`
records of the curve's points and the curve's `hairLength` entry. -/
def fill_curve_posTime {α : Type} (dist : α → α → ℚ) (ps : List α) :
    List (PositionAndParameter α) × ℚ :=
  let cum := cumulative_params dist ps
  let total_len := cum.getLastD 0
  if 0 < total_len then
    (List.zipWith (fun p t => ⟨p, t * (1 / total_len)⟩) ps cum, total_len)
  else
    (List.zipWith (fun p t => ⟨p, t⟩) ps cum, total_len)

/-- Function `fill_points_position_time_vbo`: each curve is processed
independently (the parallel loop has no cross-curve state). -/
def fill_points_position_time_vbo {α : Type} (dist : α → α → ℚ)
    (points_by_curve : List (List α)) :
    List (List (PositionAndParameter α)) × List ℚ :=
  (points_by_curve.map (fun ps => (fill_curve_posTime dist ps).1),
   points_by_curve.map (fun ps => (fill_curve_posTime dist ps).2))

/-! Edit-mode per-point bitfield data
(`create_edit_points_position_and_data` and `bezier_data_value`). -/

/-- Flag `EDIT_CURVES_NURBS_CONTROL_POINT` (bit 0). -/
def EDIT_CURVES_NURBS_CONTROL_POINT : Nat := 1

/-- Flag `EDIT_CURVES_BEZIER_HANDLE` (bit 1). -/
def EDIT_CURVES_BEZIER_HANDLE : Nat := 1 <<< 1

/-- Flag `EDIT_CURVES_ACTIVE_HANDLE` (bit 2). -/
def EDIT_CURVES_ACTIVE_HANDLE : Nat := 1 <<< 2

/-- Flag `EDIT_CURVES_BEZIER_KNOT` (bit 3). -/
def EDIT_CURVES_BEZIER_KNOT : Nat := 1 <<< 3

/-- Shift `EDIT_CURVES_HANDLE_TYPES_SHIFT` for the handle-type nibble. -/
def EDIT_CURVES_HANDLE_TYPES_SHIFT : Nat := 4

/-- Function `bezier_data_value`: handle-type in the upper bits, the
Bezier-handle flag, and the active flag when the knot is active. -/
def bezier_data_value (handle_type : Nat) (is_active : Bool) : Nat :=
  ((handle_type <<< EDIT_CURVES_HANDLE_TYPES_SHIFT) ||| EDIT_CURVES_BEZIER_HANDLE) |||
    (if is_active then EDIT_CURVES_ACTIVE_HANDLE else 0)

/-- Per-point body of the Bezier branch of
`create_edit_points_position_and_data`: the record written at the point's
own slot (`data_dst[point] = EDIT_CURVES_BEZIER_KNOT`), and the two records
written at the point's slots of the left-handle and right-handle blocks
(`bezier_data_value` of the respective handle type with
`is_active = selection ∨ left-handle selection ∨ right-handle selection`). -/
def bezier_point_records (sel selL selR : Bool) (left_type right_type : Nat) :
    Nat × Nat × Nat :=
  let is_active := sel || selL || selR
  (EDIT_CURVES_BEZIER_KNOT,
   bezier_data_value left_type is_active,
   bezier_data_value right_type is_active)

/-- Edit-mode data buffer for a geometry consisting of one Bezier curve
with `n` points (so `bezier_dst_offsets` maps its points to `[0, n)`): the
`n` knot records at the base-point slots, then the `n` left-handle records
and the `n` right-handle records in the two contiguous blocks appended
after the base points. -/
def create_edit_points_data_one_bezier (sel selL selR : Nat → Bool)
    (left_type right_type : Nat → Nat) (n : Nat) : List Nat :=
  (List.range n).map (fun p =>
    (bezier_point_records (sel p) (selL p) (selR p) (left_type p) (right_type p)).1) ++
  ((List.range n).map (fun p =>
    (bezier_point_records (sel p) (selL p) (selR p) (left_type p) (right_type p)).2.1) ++
  (List.range n).map (fun p =>
    (bezier_point_records (sel p) (selL p) (selR p) (left_type p) (right_type p)).2.2))

/-! Settings-dependent invalidation in `curves_ensure_procedural_data` and
age-based eviction in `DRW_curves_batch_cache_free_old`. -/

/-- Settings check at the top of `curves_ensure_procedural_data` (lines
guarded by `hair_subdiv != subdiv || thickres != thickness_res`): when the
requested subdivision or thickness resolution differs from the cached
values, the final tier is cleared and the new settings stored; otherwise
nothing happens. -/
def curves_procedural_settings_step (subdiv thickness_res : Int)
    (e : CurvesEvalCache) : CurvesEvalCache :=
  if e.final.hair_subdiv ≠ subdiv ∨ e.final.thickres ≠ thickness_res then
    { e with final := { clear_final_data e.final with
        hair_subdiv := subdiv, thickres := thickness_res } }
  else e

/-- Function `DRW_curves_batch_cache_free_old`: when the live attribute set
is contained in the over-time set, refresh the last-match time to `ctime`;
then, when more than `vbotimeout` (the `U.vbotimeout` userdef threshold)
has elapsed since the last match, discard the attribute buffers; the
over-time set is cleared every call. -/
def DRW_curves_batch_cache_free_old (vbotimeout ctime : Int) :
    Option CurvesBatchCache → Option CurvesBatchCache
  | none => none
  | some cache =>
      let last := if drw_attributes_overlap cache.eval_cache.final.attr_used_over_time
          cache.eval_cache.final.attr_used then ctime
        else cache.eval_cache.final.last_attr_matching_time
      let e1 := { cache.eval_cache with final :=
        { cache.eval_cache.final with
          last_attr_matching_time := last,
          attr_used_over_time := drw_attributes_cleared } }
      some { cache with eval_cache :=
        if ctime - last > vbotimeout then discard_attributes e1 else e1 }

/-- Attribute request used by the C6 counterexample: a curve-domain
attribute named "a". -/
def reqA : DRW_AttributeRequest := ⟨"a", 0, 0, AttrDomain.Curve⟩

/-- Cache state for the C6 counterexample: the live set `attr_used` holds
exactly `reqA`, whose control-point and final buffers are materialized in
slot 0; the over-time set is empty and the last match was at time 0. -/
def c6Cache : CurvesBatchCache :=
  { freshBatchCache with eval_cache :=
    { emptyEvalCache with
      proc_attributes_buf := fun i => i == 0,
      final := { emptyFinalCache with
        attributes_buf := fun i => i == 0,
        attr_used := ⟨[reqA]⟩ } } }

/-! Attribute reconciliation (`ensure_attributes`,
`ensure_control_point_attribute`, `ensure_final_attribute`) and the
evaluated-attribute lookup (`request_attribute`,
`DRW_curves_texture_for_evaluated_attribute`). -/

/-- GPU buffer actions performed by the attribute-reconciliation path. -/
inductive GpuEvent
  | discardProcAttr (i : Nat)
  | discardFinalAttr (i : Nat)
  | allocProcAttr (i : Nat)
  | allocFinalAttr (i : Nat)
deriving DecidableEq

/-- Point update of a slot array. -/
def setSlot (f : Nat → Bool) (i : Nat) (v : Bool) : Nat → Bool :=
  fun j => if j = i then v else f j

/-- Function `ensure_control_point_attribute` (buffer management): a no-op
when slot `index` already holds a buffer, otherwise the control-point
buffer is created (sized by the request's domain) and filled from the
attribute store with a color default when absent (values not modelled). -/
def ensure_control_point_attribute (e : CurvesEvalCache) (index : Nat) :
    CurvesEvalCache × List GpuEvent :=
  if e.proc_attributes_buf index then (e, [])
  else
    ({ e with proc_attributes_buf := setSlot e.proc_attributes_buf index true },
     [GpuEvent.allocProcAttr index])

/-- Function `ensure_final_attribute`: ensure the control-point buffer,
release any stale final buffer in the slot (null-safe), and allocate the
final (device-resolution) buffer only for point-domain requests. -/
def ensure_final_attribute (e : CurvesEvalCache) (request : DRW_AttributeRequest)
    (index : Nat) : CurvesEvalCache × List GpuEvent :=
  let r1 := ensure_control_point_attribute e index
  let r2 :=
    if r1.1.final.attributes_buf index then
      ({ r1.1 with final := { r1.1.final with
          attributes_buf := setSlot r1.1.final.attributes_buf index false } },
       r1.2 ++ [GpuEvent.discardFinalAttr index])
    else r1
  if request.domain = AttrDomain.Point then
    ({ r2.1 with final := { r2.1.final with
        attributes_buf := setSlot r2.1.final.attributes_buf index true } },
     r2.2 ++ [GpuEvent.allocFinalAttr index])
  else r2

/-- One iteration of the discard loop in `ensure_attributes`: release the
final-tier and the control-point buffer of slot `i` (null-safe). -/
def discard_slot_pair (acc : CurvesEvalCache × List GpuEvent) (i : Nat) :
    CurvesEvalCache × List GpuEvent :=
  let acc1 :=
    if acc.1.final.attributes_buf i then
      ({ acc.1 with final := { acc.1.final with
          attributes_buf := setSlot acc.1.final.attributes_buf i false } },
       acc.2 ++ [GpuEvent.discardFinalAttr i])
    else acc
  if acc1.1.proc_attributes_buf i then
    ({ acc1.1 with proc_attributes_buf := setSlot acc1.1.proc_attributes_buf i false },
     acc1.2 ++ [GpuEvent.discardProcAttr i])
  else acc1

/-- Discard loop of `ensure_attributes` ("free all and start over"): both
tiers' slots `0 ≤ i < GPU_MAX_ATTR`. -/
def discard_all_attr_slots (e : CurvesEvalCache) : CurvesEvalCache × List GpuEvent :=
  (List.range GPU_MAX_ATTR).foldl discard_slot_pair (e, [])

/-- One iteration of the fill loop of `ensure_attributes` over the indexed
requests of `attr_used`: skip slots already holding a final buffer,
otherwise record whether a transform-feedback update is needed (point
domain) and ensure the attribute's buffers. -/
def ensure_attr_loop_step (acc : CurvesEvalCache × Bool × List GpuEvent)
    (p : Nat × DRW_AttributeRequest) : CurvesEvalCache × Bool × List GpuEvent :=
  if acc.1.final.attributes_buf p.1 then acc
  else
    let tf := acc.2.1 || decide (p.2.domain = AttrDomain.Point)
    let r := ensure_final_attribute acc.1 p.2 p.1
    (r.1, tf, acc.2.2 ++ r.2)

/-- Reconciliation guard of `ensure_attributes`: when the needed set is not
contained in `attr_used` ("some new attributes have been added"), free
every attribute slot of both tiers and merge the needed set into
`attr_used`. -/
def ensure_attributes_reconcile (cache : CurvesEvalCache)
    (attrs_needed : DRW_Attributes) : CurvesEvalCache × List GpuEvent :=
  if ¬ drw_attributes_overlap cache.final.attr_used attrs_needed then
    let rd := discard_all_attr_slots cache
    ({ rd.1 with final := { rd.1.final with
        attr_used := drw_attributes_merge rd.1.final.attr_used attrs_needed } },
     rd.2)
  else (cache, [])

/-- Over-time bookkeeping of `ensure_attributes`: merge the needed set into
`attr_used_over_time`. -/
def ensure_attributes_over_time (r1 : CurvesEvalCache × List GpuEvent)
    (attrs_needed : DRW_Attributes) : CurvesEvalCache × List GpuEvent :=
  ({ r1.1 with final := { r1.1.final with
      attr_used_over_time := drw_attributes_merge r1.1.final.attr_used_over_time
        attrs_needed } }, r1.2)

/-- Function `ensure_attributes`, from the point where the needed set
`attrs_needed` has been derived from the material: reconcile `attr_used`
against the needed set (discarding all slots when some needed attribute is
missing), merge the needed set into `attr_used_over_time`, then
materialize every request of `attr_used` whose final slot is empty.
Returns the new cache state, the `need_tf_update` flag and the log of GPU
buffer actions. -/
def ensure_attributes (cache : CurvesEvalCache) (attrs_needed : DRW_Attributes) :
    CurvesEvalCache × Bool × List GpuEvent :=
  let r2 := ensure_attributes_over_time
    (ensure_attributes_reconcile cache attrs_needed) attrs_needed
  (r2.1.final.attr_used.requests.enum).foldl ensure_attr_loop_step
    (r2.1, false, r2.2)

/-- Attribute store entry of the geometry: the data consulted by
`lookup_meta_data` (name, domain, data type) and
`CustomData_get_named_layer` (layer index). -/
structure AttrStoreEntry where
  name : String
  domain : AttrDomain
  data_type : Nat
  layer : Int
deriving DecidableEq

/-- Attribute store used by the C10 witness: one curve-domain attribute
named "a". -/
def c10Store : List AttrStoreEntry := [⟨"a", AttrDomain.Curve, 0, 0⟩]

/-- Function `request_attribute`: look up the attribute's meta data in the
geometry's store; when absent, return without changing anything; otherwise
merge a single request (name, type, named-layer index, domain) into
`attr_used`. -/
def request_attribute (store : List AttrStoreEntry) (e : CurvesEvalCache)
    (name : String) : CurvesEvalCache :=
  match store.find? (fun a => a.name == name) with
  | none => e
  | some a =>
      { e with final := { e.final with
          attr_used := drw_attributes_merge e.final.attr_used
            ⟨[⟨name, a.data_type, a.layer, a.domain⟩]⟩ } }

/-- Result of the evaluated-attribute lookup: a pointer to a final-tier
attribute slot or to a control-point attribute slot. -/
inductive TexRef
  | finalAttr (i : Nat)
  | procAttr (i : Nat)
deriving DecidableEq

/-- Function `DRW_curves_texture_for_evaluated_attribute` on a validated
cache state: request the attribute, then scan `attr_used` for the first
request with the given name; a miss returns a null buffer pointer and
`is_point_domain = false`; a point-domain hit returns the final-tier slot
and `true`; a curve-domain hit returns the control-point slot and
`false`. -/
def DRW_curves_texture_for_evaluated_attribute (store : List AttrStoreEntry)
    (e : CurvesEvalCache) (name : String) :
    Option TexRef × Bool × CurvesEvalCache :=
  let e1 := request_attribute store e name
  match (e1.final.attr_used.requests.enum).find?
      (fun p => p.2.attribute_name == name) with
  | none => (none, false, e1)
  | some p =>
      match p.2.domain with
      | AttrDomain.Point => (some (TexRef.finalAttr p.1), true, e1)
      | AttrDomain.Curve => (some (TexRef.procAttr p.1), false, e1)

/-- A request pair is settled in a cache state: its final slot is occupied,
or it is a curve-domain request whose control-point slot is occupied.
Every pair is settled after the fill loop has processed it. -/
def slotSettled (e : CurvesEvalCache) (p : Nat × DRW_AttributeRequest) : Prop :=
  e.final.attributes_buf p.1 = true ∨
    (p.2.domain = AttrDomain.Curve ∧ e.proc_attributes_buf p.1 = true)

/-! Helper lemmas on the validate path. -/

theorem validate_of_not_dirty (c : CurvesBatchCache) (h : c.is_dirty = false) :
    DRW_curves_batch_cache_validate (some c) = some c := by
  simp [DRW_curves_batch_cache_validate, batch_cache_is_dirty, h]

theorem validate_of_dirty (c : CurvesBatchCache) (h : c.is_dirty = true) :
    DRW_curves_batch_cache_validate (some c) = some freshBatchCache := by
  cases c
  simp_all [DRW_curves_batch_cache_validate, batch_cache_is_dirty,
    clear_batch_cache, init_batch_cache, clear_edit_data, clear_eval_data,
    freshBatchCache]

theorem validate_of_none :
    DRW_curves_batch_cache_validate none = some freshBatchCache := by
  simp [DRW_curves_batch_cache_validate, batch_cache_is_dirty,
    clear_batch_cache, init_batch_cache]

theorem validate_validate (s : Option CurvesBatchCache) :
    DRW_curves_batch_cache_validate (DRW_curves_batch_cache_validate s) =
      DRW_curves_batch_cache_validate s := by
  cases s with
  | none =>
      rw [validate_of_none]
      exact validate_of_not_dirty freshBatchCache rfl
  | some c =>
      by_cases h : c.is_dirty = true
      · rw [validate_of_dirty c h]
        exact validate_of_not_dirty freshBatchCache rfl
      · rw [validate_of_not_dirty c (by simpa using h)]
        exact validate_of_not_dirty c (by simpa using h)

/-- C1: the validate operation is idempotent: on a clean existing cache it
is a no-op; on a dirty cache it releases every tier's buffers and
reinitializes an empty cache object (all eval, final, attribute and edit
buffers null, empty request sets) with the dirty flag cleared; validating
twice equals validating once. -/
theorem C1_validate_idempotent (c : CurvesBatchCache) :
    (c.is_dirty = false → DRW_curves_batch_cache_validate (some c) = some c) ∧
    (c.is_dirty = true →
      DRW_curves_batch_cache_validate (some c) = some freshBatchCache ∧
      freshBatchCache.eval_cache = emptyEvalCache ∧
      freshBatchCache.edit_points_pos = false ∧
      freshBatchCache.edit_points_data = false ∧
      freshBatchCache.edit_points_selection = false ∧
      freshBatchCache.edit_handles_ibo = false ∧
      freshBatchCache.edit_curves_lines_pos = false ∧
      freshBatchCache.edit_curves_lines_ibo = false ∧
      freshBatchCache.sculpt_cage_ibo = false ∧
      (∀ i, freshBatchCache.eval_cache.proc_attributes_buf i = false) ∧
      (∀ i, freshBatchCache.eval_cache.final.attributes_buf i = false) ∧
      freshBatchCache.eval_cache.final.proc_buf = false ∧
      freshBatchCache.eval_cache.proc_point_buf = false ∧
      freshBatchCache.is_dirty = false) ∧
    (∀ s, DRW_curves_batch_cache_validate (DRW_curves_batch_cache_validate s) =
      DRW_curves_batch_cache_validate s) := by
  refine ⟨fun h => validate_of_not_dirty c h, fun h => ?_, validate_validate⟩
  refine ⟨validate_of_dirty c h, ?_⟩
  simp [freshBatchCache, emptyEvalCache, emptyFinalCache]

/-- Witness for C1 at concrete caches: a clean fresh cache is untouched and
a dirtied fresh cache is reset. -/
theorem C1_validate_idempotent_witness :
    freshBatchCache.is_dirty = false ∧
    ({ freshBatchCache with is_dirty := true } : CurvesBatchCache).is_dirty = true ∧
    DRW_curves_batch_cache_validate (some freshBatchCache) = some freshBatchCache ∧
    DRW_curves_batch_cache_validate
      (some { freshBatchCache with is_dirty := true }) = some freshBatchCache :=
  ⟨rfl, rfl, (C1_validate_idempotent freshBatchCache).1 rfl,
    ((C1_validate_idempotent { freshBatchCache with is_dirty := true }).2.1 rfl).1⟩

/-- C9: dirty-tagging with mode ALL sets the dirty flag unconditionally on
any attached cache (and is a harmless no-op for a geometry with no cache),
while any other mode value is a fatal assertion. -/
theorem C9_dirty_tag (c : CurvesBatchCache) :
    (DRW_curves_batch_cache_dirty_tag (some c) BKE_CURVES_BATCH_DIRTY_ALL =
      Except.ok (some { c with is_dirty := true })) ∧
    (DRW_curves_batch_cache_dirty_tag none BKE_CURVES_BATCH_DIRTY_ALL =
      Except.ok none) ∧
    (∀ mode : Int, mode ≠ BKE_CURVES_BATCH_DIRTY_ALL →
      DRW_curves_batch_cache_dirty_tag (some c) mode = Except.error ()) := by
  refine ⟨by simp [DRW_curves_batch_cache_dirty_tag], rfl, fun mode hm => by
    simp [DRW_curves_batch_cache_dirty_tag, hm]⟩

/-- Witness for C9: tagging a concrete cache with mode ALL sets the flag,
and the invalid mode value 1 is the fatal path. -/
theorem C9_dirty_tag_witness :
    DRW_curves_batch_cache_dirty_tag (some freshBatchCache) BKE_CURVES_BATCH_DIRTY_ALL =
      Except.ok (some { freshBatchCache with is_dirty := true }) ∧
    (1 : Int) ≠ BKE_CURVES_BATCH_DIRTY_ALL ∧
    DRW_curves_batch_cache_dirty_tag (some freshBatchCache) 1 = Except.error () :=
  ⟨(C9_dirty_tag freshBatchCache).1, by decide,
    (C9_dirty_tag freshBatchCache).2.2 1 (by decide)⟩

theorem linesIboNoCyclicFrom_length (sizes : List Nat) :
    ∀ start, (linesIboNoCyclicFrom start sizes).length = sizes.sum + sizes.length := by
  induction sizes with
  | nil => intro start; rfl
  | cons n rest ih =>
      intro start
      simp only [linesIboNoCyclicFrom, List.length_append, List.length_map,
        List.length_range, List.sum_cons, List.length_cons, List.length_nil, ih]
      omega

theorem linesIboWithCyclicFrom_length (sizes : List Nat) :
    ∀ (bs : List Bool) start, bs.length = sizes.length →
      (linesIboWithCyclicFrom start sizes bs).length = sizes.sum + 2 * sizes.length := by
  induction sizes with
  | nil => intro bs start _; cases bs <;> rfl
  | cons n rest ih =>
      intro bs start hb
      cases bs with
      | nil => simp at hb
      | cons b bs =>
          simp only [linesIboWithCyclicFrom, List.length_append, List.length_map,
            List.length_range, List.sum_cons, List.length_cons, List.length_nil]
          rw [ih bs (start + n) (by simpa using hb)]
          omega

theorem linesIboNoCyclicFrom_block (sizes : List Nat) :
    ∀ start c, c < sizes.length →
      ((linesIboNoCyclicFrom start sizes).drop ((sizes.take c).sum + c)).take
          (sizes.getD c 0 + 1) =
        (List.range (sizes.getD c 0)).map (fun i => start + (sizes.take c).sum + i) ++
          [RESTART_INDEX] := by
  induction sizes with
  | nil => intro start c hc; simp at hc
  | cons n rest ih =>
      intro start c hc
      cases c with
      | zero =>
          simp only [List.take_zero, List.sum_nil, Nat.zero_add, List.drop_zero,
            List.getD_cons_zero, linesIboNoCyclicFrom, Nat.add_zero]
          rw [List.take_left' (by simp)]
      | succ c =>
          simp only [List.take_succ_cons, List.sum_cons, List.getD_cons_succ,
            linesIboNoCyclicFrom]
          rw [show n + (List.take c rest).sum + (c + 1) =
            (n + 1) + ((List.take c rest).sum + c) from by omega]
          rw [← List.drop_drop, List.drop_left' (by simp)]
          rw [ih (start + n) c (by simpa using hc)]
          simp [Nat.add_assoc]

theorem linesIboWithCyclicFrom_block (sizes : List Nat) :
    ∀ (bs : List Bool) start c, c < sizes.length → c < bs.length →
      ((linesIboWithCyclicFrom start sizes bs).drop ((sizes.take c).sum + 2 * c)).take
          (sizes.getD c 0 + 2) =
        (List.range (sizes.getD c 0)).map (fun i => start + (sizes.take c).sum + i) ++
          [if bs.getD c false then start + (sizes.take c).sum else RESTART_INDEX,
           RESTART_INDEX] := by
  induction sizes with
  | nil => intro bs start c hc _; simp at hc
  | cons n rest ih =>
      intro bs start c hc hcb
      cases bs with
      | nil => simp at hcb
      | cons b bs =>
          cases c with
          | zero =>
              simp only [List.take_zero, List.sum_nil, Nat.zero_add, Nat.mul_zero,
                List.drop_zero, List.getD_cons_zero, linesIboWithCyclicFrom, Nat.add_zero]
              rw [List.take_left' (by simp)]
          | succ c =>
              simp only [List.take_succ_cons, List.sum_cons, List.getD_cons_succ,
                linesIboWithCyclicFrom]
              rw [show n + (List.take c rest).sum + 2 * (c + 1) =
                (n + 2) + ((List.take c rest).sum + 2 * c) from by omega]
              rw [← List.drop_drop, List.drop_left' (by simp)]
              rw [ih bs (start + n) c (by simpa using hc) (by simpa using hcb)]
              simp [Nat.add_assoc]

/-- C4: sizes and per-curve layout of the two line index buffers.  Writing
`n` for curve `c`'s point count, `segc = n - 1` for its segment count,
`startc` for its first global point index and `R` for the restart sentinel:
the non-cyclic builder produces `pointCount + curveCount` indices and curve
`c` occupies the `segc+2` contiguous slots starting at `startc + c`, holding
its point indices followed by `R`; the cyclic-aware builder produces
`pointCount + 2*curveCount` indices and curve `c` occupies the `segc+3`
slots starting at `startc + 2*c`, whose second-to-last slot is `startc`
when the curve is cyclic and `R` otherwise, and whose last slot is `R`. -/
theorem C4_lines_ibo_sizes_layout (sizes : List Nat) (cyclic : List Bool)
    (hlen : cyclic.length = sizes.length) (c : Nat) (hc : c < sizes.length)
    (h1 : 1 ≤ sizes.getD c 0) :
    (create_lines_ibo_no_cyclic sizes).length = sizes.sum + sizes.length ∧
    (create_lines_ibo_with_cyclic sizes cyclic).length = sizes.sum + 2 * sizes.length ∧
    (((create_lines_ibo_no_cyclic sizes).drop ((sizes.take c).sum + c)).take
        ((sizes.getD c 0 - 1) + 2) =
      (List.range (sizes.getD c 0)).map (fun i => (sizes.take c).sum + i) ++
        [RESTART_INDEX]) ∧
    ((((create_lines_ibo_no_cyclic sizes).drop ((sizes.take c).sum + c)).take
        ((sizes.getD c 0 - 1) + 2)).getLast? = some RESTART_INDEX) ∧
    (((create_lines_ibo_with_cyclic sizes cyclic).drop
          ((sizes.take c).sum + 2 * c)).take ((sizes.getD c 0 - 1) + 3) =
      (List.range (sizes.getD c 0)).map (fun i => (sizes.take c).sum + i) ++
        [if cyclic.getD c false then (sizes.take c).sum else RESTART_INDEX,
         RESTART_INDEX]) ∧
    ((((create_lines_ibo_with_cyclic sizes cyclic).drop
          ((sizes.take c).sum + 2 * c)).take ((sizes.getD c 0 - 1) + 3)).getD
        ((sizes.getD c 0 - 1) + 1) 0 =
      if cyclic.getD c false then (sizes.take c).sum else RESTART_INDEX) ∧
    ((((create_lines_ibo_with_cyclic sizes cyclic).drop
          ((sizes.take c).sum + 2 * c)).take ((sizes.getD c 0 - 1) + 3)).getLast? =
      some RESTART_INDEX) := by
  have e2 : (sizes.getD c 0 - 1) + 2 = sizes.getD c 0 + 1 := by omega
  have e3 : (sizes.getD c 0 - 1) + 3 = sizes.getD c 0 + 2 := by omega
  have e1 : (sizes.getD c 0 - 1) + 1 = sizes.getD c 0 := by omega
  have hb1 := linesIboNoCyclicFrom_block sizes 0 c hc
  have hb2 := linesIboWithCyclicFrom_block sizes cyclic 0 c hc (by omega)
  simp only [Nat.zero_add] at hb1 hb2
  simp only [create_lines_ibo_no_cyclic, create_lines_ibo_with_cyclic]
  refine ⟨linesIboNoCyclicFrom_length sizes 0,
    linesIboWithCyclicFrom_length sizes cyclic 0 hlen, ?_, ?_, ?_, ?_, ?_⟩
  · rw [e2]; exact hb1
  · rw [e2, hb1]; simp
  · rw [e3]; exact hb2
  · rw [e3, e1, hb2,
      List.getD_append_right _ _ _ _ (by simp)]
    simp
  · rw [e3, hb2, List.getLast?_append_of_ne_nil _ (by simp)]
    rfl

/-- Witness for C4 at two concrete curves of 3 and 2 points, the first
cyclic. -/
theorem C4_lines_ibo_sizes_layout_witness :
    ([true, false] : List Bool).length = ([3, 2] : List Nat).length ∧
    0 < ([3, 2] : List Nat).length ∧
    1 ≤ ([3, 2] : List Nat).getD 0 0 ∧
    (create_lines_ibo_no_cyclic [3, 2]).length = 7 ∧
    (create_lines_ibo_with_cyclic [3, 2] [true, false]).length = 9 := by
  have h := C4_lines_ibo_sizes_layout [3, 2] [true, false] rfl 0 (by decide) (by decide)
  exact ⟨rfl, by decide, by decide, by simp [h.1], by simp [h.2.1]⟩

theorem eraseLoopSlots_all_false (sizes : List Nat) :
    ∀ (bs : List Bool) start, bs.length = sizes.length → (∀ b ∈ bs, b = false) →
      eraseLoopSlots sizes (linesIboWithCyclicFrom start sizes bs) =
        linesIboNoCyclicFrom start sizes := by
  induction sizes with
  | nil => intro bs start hb _; cases bs with
    | nil => rfl
    | cons b bs => simp at hb
  | cons n rest ih =>
      intro bs start hb hall
      cases bs with
      | nil => simp at hb
      | cons b bs =>
          have hbf : b = false := hall b (List.mem_cons_self b bs)
          subst hbf
          simp only [linesIboWithCyclicFrom, Bool.false_eq_true, if_false,
            eraseLoopSlots, linesIboNoCyclicFrom]
          rw [List.take_left' (by simp), List.drop_left' (by simp),
            List.eraseIdx_append_of_length_le (by simp)]
          rw [ih bs (start + n) (by simpa using hb)
            (fun x hx => hall x (List.mem_cons_of_mem false hx))]
          simp

/-- C5: on an input in which no curve is flagged cyclic the dispatcher
selects the non-cyclic builder, and the cyclic-aware builder's output on
that same input, with each curve's loop-closing slot (its second-to-last
slot, a restart sentinel there) deleted, is exactly the non-cyclic
builder's output. -/
theorem C5_dispatch_all_non_cyclic (sizes : List Nat) (cyclic : List Bool)
    (hlen : cyclic.length = sizes.length) (hall : ∀ b ∈ cyclic, b = false) :
    create_lines_ibo_dispatch sizes cyclic = create_lines_ibo_no_cyclic sizes ∧
    eraseLoopSlots sizes (create_lines_ibo_with_cyclic sizes cyclic) =
      create_lines_ibo_no_cyclic sizes := by
  have hflag : no_cyclic_flag cyclic = true := by
    simp only [no_cyclic_flag, List.all_eq_true]
    intro b hb
    simp [hall b hb]
  exact ⟨by simp [create_lines_ibo_dispatch, hflag],
    eraseLoopSlots_all_false sizes cyclic 0 hlen hall⟩

theorem cumFrom_length {α : Type} (dist : α → α → ℚ) :
    ∀ (rest : List α) prev total, (cumFrom dist prev total rest).length = rest.length := by
  intro rest
  induction rest with
  | nil => intro prev total; rfl
  | cons p r ih => intro prev total; simp [cumFrom, ih]

theorem cumulative_params_length {α : Type} (dist : α → α → ℚ) (ps : List α) :
    (cumulative_params dist ps).length = ps.length := by
  cases ps with
  | nil => rfl
  | cons p rest => simp [cumulative_params, cumFrom_length]

theorem cumFrom_getLastD {α : Type} (dist : α → α → ℚ) :
    ∀ (rest : List α) prev total,
      (cumFrom dist prev total rest).getLastD total =
        total + (List.zipWith dist (prev :: rest) rest).sum := by
  intro rest
  induction rest with
  | nil => intro prev total; simp [cumFrom]
  | cons p r ih =>
      intro prev total
      simp only [cumFrom, List.getLastD_cons, List.zipWith, List.sum_cons]
      rw [ih p (total + dist prev p)]
      ring

theorem cumFrom_le_getLastD {α : Type} (dist : α → α → ℚ)
    (hd : ∀ a b, 0 ≤ dist a b) :
    ∀ (rest : List α) prev total,
      total ≤ (cumFrom dist prev total rest).getLastD total := by
  intro rest
  induction rest with
  | nil => intro prev total; simp [cumFrom]
  | cons p r ih =>
      intro prev total
      simp only [cumFrom, List.getLastD_cons]
      calc total ≤ total + dist prev p := by have := hd prev p; linarith
        _ ≤ _ := ih p (total + dist prev p)

theorem mem_cumFrom_le {α : Type} (dist : α → α → ℚ)
    (hd : ∀ a b, 0 ≤ dist a b) :
    ∀ (rest : List α) prev total x, x ∈ cumFrom dist prev total rest →
      x ≤ (cumFrom dist prev total rest).getLastD total := by
  intro rest
  induction rest with
  | nil => intro prev total x hx; simp [cumFrom] at hx
  | cons p r ih =>
      intro prev total x hx
      simp only [cumFrom, List.mem_cons] at hx
      simp only [cumFrom, List.getLastD_cons]
      rcases hx with h | h
      · subst h; exact cumFrom_le_getLastD dist hd r p _
      · exact ih p (total + dist prev p) x h

theorem mem_cumFrom_ge {α : Type} (dist : α → α → ℚ)
    (hd : ∀ a b, 0 ≤ dist a b) :
    ∀ (rest : List α) prev total x, x ∈ cumFrom dist prev total rest → total ≤ x := by
  intro rest
  induction rest with
  | nil => intro prev total x hx; simp [cumFrom] at hx
  | cons p r ih =>
      intro prev total x hx
      simp only [cumFrom, List.mem_cons] at hx
      rcases hx with h | h
      · subst h; have := hd prev p; linarith
      · have := ih p (total + dist prev p) x h
        have := hd prev p
        linarith

theorem cumFrom_chain {α : Type} (dist : α → α → ℚ)
    (hd : ∀ a b, 0 ≤ dist a b) :
    ∀ (rest : List α) prev total,
      List.Chain' (· ≤ ·) (total :: cumFrom dist prev total rest) := by
  intro rest
  induction rest with
  | nil => intro prev total; simp [cumFrom]
  | cons p r ih =>
      intro prev total
      simp only [cumFrom]
      rw [List.chain'_cons]
      exact ⟨by have := hd prev p; linarith, ih p (total + dist prev p)⟩

theorem cumulative_params_getLastD {α : Type} (dist : α → α → ℚ) (ps : List α) :
    (cumulative_params dist ps).getLastD 0 = total_arclength dist ps := by
  cases ps with
  | nil => rfl
  | cons p rest =>
      simp only [cumulative_params, List.getLastD_cons, total_arclength, List.tail_cons]
      rw [cumFrom_getLastD dist rest p 0]
      ring

theorem cumulative_params_chain {α : Type} (dist : α → α → ℚ)
    (hd : ∀ a b, 0 ≤ dist a b) (ps : List α) :
    List.Chain' (· ≤ ·) (cumulative_params dist ps) := by
  cases ps with
  | nil => simp [cumulative_params]
  | cons p rest => exact cumFrom_chain dist hd rest p 0

theorem mem_cumulative_params {α : Type} (dist : α → α → ℚ)
    (hd : ∀ a b, 0 ≤ dist a b) (ps : List α) (x : ℚ)
    (hx : x ∈ cumulative_params dist ps) :
    0 ≤ x ∧ x ≤ (cumulative_params dist ps).getLastD 0 := by
  cases ps with
  | nil => simp [cumulative_params] at hx
  | cons p rest =>
      simp only [cumulative_params, List.mem_cons] at hx
      simp only [cumulative_params, List.getLastD_cons]
      rcases hx with h | h
      · subst h; exact ⟨le_refl 0, cumFrom_le_getLastD dist hd rest p 0⟩
      · exact ⟨mem_cumFrom_ge dist hd rest p 0 x h, mem_cumFrom_le dist hd rest p 0 x h⟩

theorem getLast?_of_ne_nil {β : Type} (l : List β) (d : β) (h : l ≠ []) :
    l.getLast? = some (l.getLastD d) := by
  induction l with
  | nil => simp at h
  | cons a t ih =>
      cases t with
      | nil => rfl
      | cons b t2 =>
          rw [List.getLastD_cons]
          rw [List.getLast?_cons_cons]
          exact ih (by simp)

theorem zipWith_param_map {α : Type} (g : ℚ → ℚ) :
    ∀ (ps : List α) (cum : List ℚ), cum.length = ps.length →
      (List.zipWith (fun p t => (⟨p, g t⟩ : PositionAndParameter α)) ps cum).map
          PositionAndParameter.parameter = cum.map g := by
  intro ps
  induction ps with
  | nil => intro cum h; simp at h; simp [h]
  | cons p rest ih =>
      intro cum h
      cases cum with
      | nil => simp at h
      | cons t ts => simp [ih ts (by simpa using h)]

theorem getD_map_of_lt {β γ : Type} (f : β → γ) (dβ : β) (dγ : γ) :
    ∀ (l : List β) i, i < l.length → (l.map f).getD i dγ = f (l.getD i dβ) := by
  intro l
  induction l with
  | nil => intro i hi; simp at hi
  | cons a t ih =>
      intro i hi
      cases i with
      | zero => simp
      | succ j => simpa using ih j (by simpa using hi)

theorem fill_curve_posTime_snd {α : Type} (dist : α → α → ℚ) (ps : List α) :
    (fill_curve_posTime dist ps).2 = (cumulative_params dist ps).getLastD 0 := by
  simp only [fill_curve_posTime]
  split <;> rfl

theorem fill_curve_posTime_fst_pos {α : Type} (dist : α → α → ℚ) (ps : List α)
    (h : 0 < (cumulative_params dist ps).getLastD 0) :
    (fill_curve_posTime dist ps).1 =
      List.zipWith
        (fun p t => (⟨p, t * (1 / (cumulative_params dist ps).getLastD 0)⟩ :
          PositionAndParameter α)) ps (cumulative_params dist ps) := by
  simp only [fill_curve_posTime]
  rw [if_pos h]

theorem fill_curve_posTime_fst_nonpos {α : Type} (dist : α → α → ℚ) (ps : List α)
    (h : ¬ 0 < (cumulative_params dist ps).getLastD 0) :
    (fill_curve_posTime dist ps).1 =
      List.zipWith (fun p t => (⟨p, t⟩ : PositionAndParameter α)) ps
        (cumulative_params dist ps) := by
  simp only [fill_curve_posTime]
  rw [if_neg h]

/-- C2: for every curve processed by the position-parameter fill, the two
outputs are the per-curve results; when the curve has at least two points
and positive stored total length, the parameter at its last point is
exactly 1 and the per-point parameters are non-decreasing along the curve;
when the curve's total arclength is 0 (all points coincide or a single
point), every parameter of the curve is 0 and the stored per-curve length
is 0. -/
theorem C2_fill_points_position_time {α : Type} (dist : α → α → ℚ)
    (curves : List (List α)) (hd : ∀ a b, 0 ≤ dist a b)
    (i : Nat) (hi : i < curves.length) :
    (fill_points_position_time_vbo dist curves).1.getD i [] =
      (fill_curve_posTime dist (curves.getD i [])).1 ∧
    (fill_points_position_time_vbo dist curves).2.getD i 0 =
      (fill_curve_posTime dist (curves.getD i [])).2 ∧
    (2 ≤ (curves.getD i []).length →
      0 < (fill_curve_posTime dist (curves.getD i [])).2 →
      ((fill_curve_posTime dist (curves.getD i [])).1.map
          PositionAndParameter.parameter).getLast? = some 1 ∧
      List.Chain' (· ≤ ·)
        ((fill_curve_posTime dist (curves.getD i [])).1.map
          PositionAndParameter.parameter)) ∧
    (total_arclength dist (curves.getD i []) = 0 →
      (∀ q ∈ (fill_curve_posTime dist (curves.getD i [])).1, q.parameter = 0) ∧
      (fill_curve_posTime dist (curves.getD i [])).2 = 0) := by
  have hlen : (cumulative_params dist (curves.getD i [])).length =
      (curves.getD i []).length := cumulative_params_length dist _
  refine ⟨getD_map_of_lt _ [] [] curves i hi, getD_map_of_lt _ [] 0 curves i hi,
    fun hN htot => ?_, fun h0 => ?_⟩
  · rw [fill_curve_posTime_snd] at htot
    have hne : cumulative_params dist (curves.getD i []) ≠ [] := by
      intro h
      rw [h] at hlen
      have hz : (curves.getD i []).length = 0 := by
        simpa only [List.length_nil] using hlen.symm
      omega
    rw [fill_curve_posTime_fst_pos dist _ htot,
      zipWith_param_map
        (fun t => t * (1 / (cumulative_params dist (curves.getD i [])).getLastD 0))
        _ _ hlen]
    constructor
    · rw [List.getLast?_map, getLast?_of_ne_nil _ 0 hne]
      simp only [Option.map_some']
      rw [mul_one_div, div_self (ne_of_gt htot)]
    · rw [List.chain'_map]
      exact (cumulative_params_chain dist hd _).imp
        (fun a b hab => by
          have h1t : 0 ≤ 1 / (cumulative_params dist (curves.getD i [])).getLastD 0 := by
            positivity
          exact mul_le_mul_of_nonneg_right hab h1t)
  · have htot0 : (cumulative_params dist (curves.getD i [])).getLastD 0 = 0 := by
      rw [cumulative_params_getLastD]
      exact h0
    refine ⟨fun q hq => ?_, by rw [fill_curve_posTime_snd]; exact htot0⟩
    have hfst := fill_curve_posTime_fst_nonpos dist (curves.getD i [])
      (by rw [htot0]; exact lt_irrefl 0)
    have hzw := zipWith_param_map (fun t => t) (curves.getD i [])
      (cumulative_params dist (curves.getD i [])) hlen
    have hmem : q.parameter ∈
        ((fill_curve_posTime dist (curves.getD i [])).1.map
          PositionAndParameter.parameter) := List.mem_map_of_mem _ hq
    rw [hfst, hzw, List.map_id'] at hmem
    have hb := mem_cumulative_params dist hd _ _ hmem
    rw [htot0] at hb
    linarith [hb.1, hb.2]

/-- Witness for C2 at two concrete curves over a unit position type with
the constant distance 1: a 3-point curve of total length 2 and a 1-point
curve of total length 0. -/
theorem C2_fill_points_position_time_witness :
    (∀ a b : Unit, 0 ≤ (fun _ _ => (1 : ℚ)) a b) ∧
    0 < ([[(), (), ()], [()]] : List (List Unit)).length ∧
    2 ≤ (([[(), (), ()], [()]] : List (List Unit)).getD 0 []).length ∧
    0 < (fill_curve_posTime (fun _ _ => (1 : ℚ))
      (([[(), (), ()], [()]] : List (List Unit)).getD 0 [])).2 ∧
    ((fill_curve_posTime (fun _ _ => (1 : ℚ))
        (([[(), (), ()], [()]] : List (List Unit)).getD 0 [])).1.map
      PositionAndParameter.parameter).getLast? = some 1 ∧
    total_arclength (fun _ _ => (1 : ℚ))
      (([[(), (), ()], [()]] : List (List Unit)).getD 1 []) = 0 ∧
    (fill_curve_posTime (fun _ _ => (1 : ℚ))
      (([[(), (), ()], [()]] : List (List Unit)).getD 1 [])).2 = 0 := by
  have hd : ∀ a b : Unit, 0 ≤ (fun _ _ => (1 : ℚ)) a b := fun a b => zero_le_one
  have hN : 2 ≤ (([[(), (), ()], [()]] : List (List Unit)).getD 0 []).length := by decide
  have htot : 0 < (fill_curve_posTime (fun _ _ => (1 : ℚ))
      (([[(), (), ()], [()]] : List (List Unit)).getD 0 [])).2 := by
    norm_num [fill_curve_posTime, cumulative_params, cumFrom]
  have h0 : total_arclength (fun _ _ => (1 : ℚ))
      (([[(), (), ()], [()]] : List (List Unit)).getD 1 []) = 0 := by
    norm_num [total_arclength]
  have h1 := (C2_fill_points_position_time (fun _ _ => (1 : ℚ))
    [[(), (), ()], [()]] hd 0 (by decide)).2.2.1 hN htot
  have h2 := (C2_fill_points_position_time (fun _ _ => (1 : ℚ))
    [[(), (), ()], [()]] hd 1 (by decide)).2.2.2 h0
  exact ⟨hd, by decide, hN, htot, h1.1, h0, h2.2⟩

/-- Witness for C5 at two non-cyclic curves of 2 and 3 points. -/
theorem C5_dispatch_all_non_cyclic_witness :
    ([false, false] : List Bool).length = ([2, 3] : List Nat).length ∧
    (∀ b ∈ ([false, false] : List Bool), b = false) ∧
    create_lines_ibo_dispatch [2, 3] [false, false] =
      create_lines_ibo_no_cyclic [2, 3] ∧
    eraseLoopSlots [2, 3] (create_lines_ibo_with_cyclic [2, 3] [false, false]) =
      create_lines_ibo_no_cyclic [2, 3] :=
  ⟨rfl, by decide,
    (C5_dispatch_all_non_cyclic [2, 3] [false, false] rfl (by decide)).1,
    (C5_dispatch_all_non_cyclic [2, 3] [false, false] rfl (by decide)).2⟩

theorem getD_range_of_lt (n p : Nat) (h : p < n) : (List.range n).getD p 0 = p := by
  rw [List.getD_eq_getElem _ _ (by simpa using h)]
  exact List.getElem_range _ _

theorem bezier_data_value_bits :
    ∀ t, t < 16 → ∀ b : Bool,
      (bezier_data_value t b).testBit 1 = true ∧
      (bezier_data_value t b >>> EDIT_CURVES_HANDLE_TYPES_SHIFT) = t ∧
      (b = true → (bezier_data_value t b).testBit 2 = true) := by
  decide

theorem edit_points_data_one_bezier_getD (sel selL selR : Nat → Bool)
    (left_type right_type : Nat → Nat) (n p : Nat) (hp : p < n) :
    (create_edit_points_data_one_bezier sel selL selR left_type right_type n).getD p 0 =
      EDIT_CURVES_BEZIER_KNOT ∧
    (create_edit_points_data_one_bezier sel selL selR left_type right_type n).getD
        (n + p) 0 =
      bezier_data_value (left_type p) (sel p || selL p || selR p) ∧
    (create_edit_points_data_one_bezier sel selL selR left_type right_type n).getD
        (2 * n + p) 0 =
      bezier_data_value (right_type p) (sel p || selL p || selR p) := by
  unfold create_edit_points_data_one_bezier
  refine ⟨?_, ?_, ?_⟩
  · rw [List.getD_append _ _ _ _ (by simpa using hp),
      getD_map_of_lt _ 0 0 _ p (by simpa using hp), getD_range_of_lt n p hp]
    rfl
  · rw [List.getD_append_right _ _ _ _ (by simp),
      List.getD_append _ _ _ _ (by simpa using hp)]
    simp only [List.length_map, List.length_range]
    rw [show n + p - n = p from by omega,
      getD_map_of_lt _ 0 0 _ p (by simpa using hp), getD_range_of_lt n p hp]
    rfl
  · rw [List.getD_append_right _ _ _ _ (by simp; omega),
      List.getD_append_right _ _ _ _ (by simp; omega)]
    simp only [List.length_map, List.length_range]
    rw [show 2 * n + p - n - n = p from by omega,
      getD_map_of_lt _ 0 0 _ p (by simpa using hp), getD_range_of_lt n p hp]
    rfl

/-- C7: in the edit-mode bitfield buffer of a Bezier curve, for every
selected knot `p` (with handle-type nibbles): the knot's own record is the
Bezier-knot flag alone, with the NURBS bit (0), the handle bit (1) and the
active bit (2) all cleared; and the corresponding records of the appended
left-handle and right-handle blocks both carry the Bezier-handle flag
(bit 1), the active bit (bit 2), and the respective handle type shifted
into the upper bits. -/
theorem C7_bezier_edit_bitfield (sel selL selR : Nat → Bool)
    (left_type right_type : Nat → Nat) (n p : Nat) (hp : p < n)
    (hsel : sel p = true) (hlt : left_type p < 16) (hrt : right_type p < 16) :
    (create_edit_points_data_one_bezier sel selL selR left_type right_type n).getD p 0 =
      EDIT_CURVES_BEZIER_KNOT ∧
    EDIT_CURVES_BEZIER_KNOT.testBit 0 = false ∧
    EDIT_CURVES_BEZIER_KNOT.testBit 1 = false ∧
    EDIT_CURVES_BEZIER_KNOT.testBit 2 = false ∧
    EDIT_CURVES_BEZIER_KNOT.testBit 3 = true ∧
    ((create_edit_points_data_one_bezier sel selL selR left_type right_type n).getD
        (n + p) 0).testBit 1 = true ∧
    ((create_edit_points_data_one_bezier sel selL selR left_type right_type n).getD
        (n + p) 0).testBit 2 = true ∧
    ((create_edit_points_data_one_bezier sel selL selR left_type right_type n).getD
        (n + p) 0) >>> EDIT_CURVES_HANDLE_TYPES_SHIFT = left_type p ∧
    ((create_edit_points_data_one_bezier sel selL selR left_type right_type n).getD
        (2 * n + p) 0).testBit 1 = true ∧
    ((create_edit_points_data_one_bezier sel selL selR left_type right_type n).getD
        (2 * n + p) 0).testBit 2 = true ∧
    ((create_edit_points_data_one_bezier sel selL selR left_type right_type n).getD
        (2 * n + p) 0) >>> EDIT_CURVES_HANDLE_TYPES_SHIFT = right_type p := by
  obtain ⟨h1, h2, h3⟩ := edit_points_data_one_bezier_getD sel selL selR
    left_type right_type n p hp
  have hact : (sel p || selL p || selR p) = true := by simp [hsel]
  have hl := bezier_data_value_bits (left_type p) hlt (sel p || selL p || selR p)
  have hr := bezier_data_value_bits (right_type p) hrt (sel p || selL p || selR p)
  rw [h1, h2, h3]
  exact ⟨rfl, by decide, by decide, by decide, by decide,
    hl.1, hl.2.2 hact, hl.2.1, hr.1, hr.2.2 hact, hr.2.1⟩

/-- Witness for C7 at a one-point Bezier curve with a selected knot and
handle types Vector (2) and Auto (1). -/
theorem C7_bezier_edit_bitfield_witness :
    (0 : Nat) < 1 ∧ (fun _ : Nat => true) 0 = true ∧
    (fun _ : Nat => 2) 0 < 16 ∧ (fun _ : Nat => 1) 0 < 16 ∧
    (create_edit_points_data_one_bezier (fun _ => true) (fun _ => false)
        (fun _ => false) (fun _ => 2) (fun _ => 1) 1).getD 0 0 =
      EDIT_CURVES_BEZIER_KNOT ∧
    ((create_edit_points_data_one_bezier (fun _ => true) (fun _ => false)
        (fun _ => false) (fun _ => 2) (fun _ => 1) 1).getD 1 0).testBit 2 = true ∧
    ((create_edit_points_data_one_bezier (fun _ => true) (fun _ => false)
        (fun _ => false) (fun _ => 2) (fun _ => 1) 1).getD 2 0) >>>
      EDIT_CURVES_HANDLE_TYPES_SHIFT = 1 := by
  have h := C7_bezier_edit_bitfield (fun _ => true) (fun _ => false)
    (fun _ => false) (fun _ => 2) (fun _ => 1) 1 0 (by decide) rfl
    (by decide) (by decide)
  exact ⟨by decide, rfl, by decide, by decide, h.1, h.2.2.2.2.2.2.1,
    h.2.2.2.2.2.2.2.2.2.2⟩

/-- C8: when the requested subdivision level or thickness resolution
differs from the cached values, the settings step frees only the final
tier (device-resolution position buffer, batch, final attribute slots) and
stores the new settings, while the topology-tier buffers
(positions-with-parameter, hair length, per-curve offset and segment-count
buffers) and the control-point attribute buffers are unchanged by that
step. -/
theorem C8_final_tier_only_invalidation (subdiv thickness_res : Int)
    (e : CurvesEvalCache)
    (h : e.final.hair_subdiv ≠ subdiv ∨ e.final.thickres ≠ thickness_res) :
    (curves_procedural_settings_step subdiv thickness_res e).final.proc_buf = false ∧
    (curves_procedural_settings_step subdiv thickness_res e).final.proc_hairs = false ∧
    (∀ i, i < GPU_MAX_ATTR →
      (curves_procedural_settings_step subdiv thickness_res e).final.attributes_buf i =
        false) ∧
    (curves_procedural_settings_step subdiv thickness_res e).proc_point_buf =
      e.proc_point_buf ∧
    (curves_procedural_settings_step subdiv thickness_res e).proc_length_buf =
      e.proc_length_buf ∧
    (curves_procedural_settings_step subdiv thickness_res e).proc_strand_buf =
      e.proc_strand_buf ∧
    (curves_procedural_settings_step subdiv thickness_res e).proc_strand_seg_buf =
      e.proc_strand_seg_buf ∧
    (curves_procedural_settings_step subdiv thickness_res e).proc_attributes_buf =
      e.proc_attributes_buf ∧
    (curves_procedural_settings_step subdiv thickness_res e).final.attr_used =
      e.final.attr_used ∧
    (curves_procedural_settings_step subdiv thickness_res e).final.hair_subdiv = subdiv ∧
    (curves_procedural_settings_step subdiv thickness_res e).final.thickres =
      thickness_res := by
  have hstep : curves_procedural_settings_step subdiv thickness_res e =
      { e with final := { clear_final_data e.final with
          hair_subdiv := subdiv, thickres := thickness_res } } := by
    simp only [curves_procedural_settings_step, if_pos h]
  rw [hstep]
  refine ⟨rfl, rfl, fun i hi => ?_, rfl, rfl, rfl, rfl, rfl, rfl, rfl, rfl⟩
  simp [clear_final_data, hi]

/-- Witness for C8 at the empty cache with new settings (1, 2). -/
theorem C8_final_tier_only_invalidation_witness :
    (emptyEvalCache.final.hair_subdiv ≠ 1 ∨ emptyEvalCache.final.thickres ≠ 2) ∧
    (curves_procedural_settings_step 1 2 emptyEvalCache).final.proc_buf = false ∧
    (curves_procedural_settings_step 1 2 emptyEvalCache).proc_point_buf =
      emptyEvalCache.proc_point_buf ∧
    (curves_procedural_settings_step 1 2 emptyEvalCache).final.hair_subdiv = 1 := by
  have hd : (emptyEvalCache.final.hair_subdiv ≠ 1 ∨ emptyEvalCache.final.thickres ≠ 2) :=
    Or.inl (by decide)
  have h := C8_final_tier_only_invalidation 1 2 emptyEvalCache hd
  exact ⟨hd, h.1, h.2.2.2.1, h.2.2.2.2.2.2.2.2.2.1⟩

/-- Counterexample to C6 as stated: with decay threshold 10 at time 20, a
cache whose live set contains the attribute `reqA` (buffers materialized in
slot 0) whose last over-time match was at time 0.  The claim asserts that
on eviction only buffers for attributes outside the live set are evicted
and live-set attributes are retained; the code instead discards slot 0's
control-point and final buffers and clears the live request set itself. -/
theorem C6_counterexample :
    reqA ∈ c6Cache.eval_cache.final.attr_used.requests ∧
    c6Cache.eval_cache.proc_attributes_buf 0 = true ∧
    c6Cache.eval_cache.final.attributes_buf 0 = true ∧
    (DRW_curves_batch_cache_free_old 10 20 (some c6Cache)).map
      (fun c => c.eval_cache.proc_attributes_buf 0) = some false ∧
    (DRW_curves_batch_cache_free_old 10 20 (some c6Cache)).map
      (fun c => c.eval_cache.final.attributes_buf 0) = some false ∧
    (DRW_curves_batch_cache_free_old 10 20 (some c6Cache)).map
      (fun c => c.eval_cache.final.attr_used) = some drw_attributes_cleared := by
  refine ⟨by simp [c6Cache, reqA], rfl, rfl, ?_, ?_, ?_⟩ <;> rfl

/-- C6 amended: before more than the decay threshold elapses since the last
frame at which the live set matched the over-time set, every attribute
buffer is retained (the call only refreshes the match time and clears the
over-time set); once more than the threshold elapses without a match, ALL
attribute buffers are evicted — both control-point and final tiers,
including the buffers of live-set attributes — and the live request set is
cleared, while the topology-tier buffers are untouched. -/
theorem C6_eviction_amended (vbotimeout ctime : Int) (cache : CurvesBatchCache) :
    (¬ ctime - (if drw_attributes_overlap cache.eval_cache.final.attr_used_over_time
          cache.eval_cache.final.attr_used then ctime
        else cache.eval_cache.final.last_attr_matching_time) > vbotimeout →
      DRW_curves_batch_cache_free_old vbotimeout ctime (some cache) =
        some { cache with eval_cache := { cache.eval_cache with final :=
          { cache.eval_cache.final with
            last_attr_matching_time :=
              if drw_attributes_overlap cache.eval_cache.final.attr_used_over_time
                  cache.eval_cache.final.attr_used then ctime
                else cache.eval_cache.final.last_attr_matching_time,
            attr_used_over_time := drw_attributes_cleared } } }) ∧
    (ctime - (if drw_attributes_overlap cache.eval_cache.final.attr_used_over_time
          cache.eval_cache.final.attr_used then ctime
        else cache.eval_cache.final.last_attr_matching_time) > vbotimeout →
      ∀ c', DRW_curves_batch_cache_free_old vbotimeout ctime (some cache) = some c' →
        (∀ i, i < GPU_MAX_ATTR → c'.eval_cache.proc_attributes_buf i = false) ∧
        (∀ i, i < GPU_MAX_ATTR → c'.eval_cache.final.attributes_buf i = false) ∧
        c'.eval_cache.final.attr_used = drw_attributes_cleared ∧
        c'.eval_cache.proc_point_buf = cache.eval_cache.proc_point_buf ∧
        c'.eval_cache.proc_length_buf = cache.eval_cache.proc_length_buf ∧
        c'.eval_cache.proc_strand_buf = cache.eval_cache.proc_strand_buf ∧
        c'.eval_cache.proc_strand_seg_buf = cache.eval_cache.proc_strand_seg_buf ∧
        c'.eval_cache.final.proc_buf = cache.eval_cache.final.proc_buf) := by
  constructor
  · intro h
    simp only [DRW_curves_batch_cache_free_old]
    rw [if_neg h]
  · intro h c' hc'
    simp only [DRW_curves_batch_cache_free_old] at hc'
    rw [if_pos h] at hc'
    have hceq := Option.some.inj hc'
    subst hceq
    refine ⟨fun i hi => ?_, fun i hi => ?_, rfl, rfl, rfl, rfl, rfl, rfl⟩ <;>
      simp [discard_attributes, hi]

/-- Witness for C6 amended: at the counterexample cache, time 5 is within
the threshold 10 (buffers retained), time 20 is beyond it (everything
evicted). -/
theorem C6_eviction_amended_witness :
    (¬ (5 : Int) - (if drw_attributes_overlap c6Cache.eval_cache.final.attr_used_over_time
          c6Cache.eval_cache.final.attr_used then 5
        else c6Cache.eval_cache.final.last_attr_matching_time) > 10) ∧
    (DRW_curves_batch_cache_free_old 10 5 (some c6Cache) =
      some { c6Cache with eval_cache := { c6Cache.eval_cache with final :=
        { c6Cache.eval_cache.final with
          last_attr_matching_time :=
            if drw_attributes_overlap c6Cache.eval_cache.final.attr_used_over_time
                c6Cache.eval_cache.final.attr_used then 5
              else c6Cache.eval_cache.final.last_attr_matching_time,
          attr_used_over_time := drw_attributes_cleared } } }) ∧
    ((20 : Int) - (if drw_attributes_overlap c6Cache.eval_cache.final.attr_used_over_time
          c6Cache.eval_cache.final.attr_used then 20
        else c6Cache.eval_cache.final.last_attr_matching_time) > 10) := by
  have h1 : ¬ (5 : Int) -
      (if drw_attributes_overlap c6Cache.eval_cache.final.attr_used_over_time
          c6Cache.eval_cache.final.attr_used then 5
        else c6Cache.eval_cache.final.last_attr_matching_time) > 10 := by decide
  have h3 : (20 : Int) -
      (if drw_attributes_overlap c6Cache.eval_cache.final.attr_used_over_time
          c6Cache.eval_cache.final.attr_used then 20
        else c6Cache.eval_cache.final.last_attr_matching_time) > 10 := by decide
  exact ⟨h1, (C6_eviction_amended 10 5 c6Cache).1 h1, h3⟩

theorem setSlot_same (f : Nat → Bool) (i : Nat) (v : Bool) : setSlot f i v i = v := by
  simp [setSlot]

theorem setSlot_other (f : Nat → Bool) (i j : Nat) (v : Bool) (h : j ≠ i) :
    setSlot f i v j = f j := by
  simp [setSlot, h]

theorem overlap_iff (a b : DRW_Attributes) :
    drw_attributes_overlap a b = true ↔ ∀ r ∈ b.requests, r ∈ a.requests := by
  simp [drw_attributes_overlap, List.all_eq_true]

theorem mem_merge_right (a b : DRW_Attributes) (r : DRW_AttributeRequest)
    (h : r ∈ b.requests) : r ∈ (drw_attributes_merge a b).requests := by
  simp only [drw_attributes_merge, List.mem_append, List.mem_filter]
  by_cases ha : r ∈ a.requests
  · exact Or.inl ha
  · exact Or.inr ⟨h, by simpa using ha⟩

theorem overlap_merge (a b : DRW_Attributes) :
    drw_attributes_overlap (drw_attributes_merge a b) b = true := by
  rw [overlap_iff]
  exact fun r hr => mem_merge_right a b r hr

theorem merge_of_overlap (a b : DRW_Attributes)
    (h : drw_attributes_overlap a b = true) : drw_attributes_merge a b = a := by
  rw [overlap_iff] at h
  simp only [drw_attributes_merge]
  have : b.requests.filter (fun r => decide (r ∉ a.requests)) = [] := by
    rw [List.filter_eq_nil_iff]
    intro r hr
    simpa using h r hr
  rw [this, List.append_nil]

theorem merge_idem (a b : DRW_Attributes) :
    drw_attributes_merge (drw_attributes_merge a b) b = drw_attributes_merge a b :=
  merge_of_overlap _ b (overlap_merge a b)

theorem ensure_final_proc_self (e : CurvesEvalCache) (req : DRW_AttributeRequest)
    (i : Nat) : (ensure_final_attribute e req i).1.proc_attributes_buf i = true := by
  simp only [ensure_final_attribute, ensure_control_point_attribute]
  by_cases hp : e.proc_attributes_buf i <;>
    by_cases hf : e.final.attributes_buf i <;>
    by_cases hd : req.domain = AttrDomain.Point <;>
    simp [hp, hf, hd, setSlot]

theorem ensure_final_final_self (e : CurvesEvalCache) (req : DRW_AttributeRequest)
    (i : Nat) :
    (ensure_final_attribute e req i).1.final.attributes_buf i =
      decide (req.domain = AttrDomain.Point) := by
  simp only [ensure_final_attribute, ensure_control_point_attribute]
  by_cases hp : e.proc_attributes_buf i <;>
    by_cases hf : e.final.attributes_buf i <;>
    by_cases hd : req.domain = AttrDomain.Point <;>
    simp [hp, hf, hd, setSlot]

theorem ensure_final_frame (e : CurvesEvalCache) (req : DRW_AttributeRequest)
    (i j : Nat) (h : j ≠ i) :
    (ensure_final_attribute e req i).1.proc_attributes_buf j =
      e.proc_attributes_buf j ∧
    (ensure_final_attribute e req i).1.final.attributes_buf j =
      e.final.attributes_buf j := by
  simp only [ensure_final_attribute, ensure_control_point_attribute]
  by_cases hp : e.proc_attributes_buf i <;>
    by_cases hf : e.final.attributes_buf i <;>
    by_cases hd : req.domain = AttrDomain.Point <;>
    simp [hp, hf, hd, setSlot, h]

theorem ensure_final_meta (e : CurvesEvalCache) (req : DRW_AttributeRequest)
    (i : Nat) :
    (ensure_final_attribute e req i).1.final.attr_used = e.final.attr_used ∧
    (ensure_final_attribute e req i).1.final.attr_used_over_time =
      e.final.attr_used_over_time := by
  simp only [ensure_final_attribute, ensure_control_point_attribute]
  by_cases hp : e.proc_attributes_buf i <;>
    by_cases hf : e.final.attributes_buf i <;>
    by_cases hd : req.domain = AttrDomain.Point <;>
    simp [hp, hf, hd]

theorem ensure_final_of_proc_true_curve (e : CurvesEvalCache)
    (req : DRW_AttributeRequest) (i : Nat) (hp : e.proc_attributes_buf i = true)
    (hf : e.final.attributes_buf i = false) (hd : req.domain = AttrDomain.Curve) :
    ensure_final_attribute e req i = (e, []) := by
  have hdp : ¬ req.domain = AttrDomain.Point := by rw [hd]; intro h; cases h
  simp [ensure_final_attribute, ensure_control_point_attribute, hp, hf, hdp]

theorem step_skip (acc : CurvesEvalCache × Bool × List GpuEvent)
    (p : Nat × DRW_AttributeRequest) (h : acc.1.final.attributes_buf p.1 = true) :
    ensure_attr_loop_step acc p = acc := by
  simp [ensure_attr_loop_step, h]

theorem step_settled_noop (acc : CurvesEvalCache × Bool × List GpuEvent)
    (p : Nat × DRW_AttributeRequest) (h : slotSettled acc.1 p) :
    ensure_attr_loop_step acc p = acc := by
  rcases h with h | ⟨hd, hp⟩
  · exact step_skip acc p h
  · by_cases hf : acc.1.final.attributes_buf p.1 = true
    · exact step_skip acc p hf
    · have hdp : ¬ p.2.domain = AttrDomain.Point := by rw [hd]; intro h; cases h
      simp only [ensure_attr_loop_step, hf, if_false, Bool.if_false_left]
      rw [ensure_final_of_proc_true_curve acc.1 p.2 p.1 hp
        (Bool.not_eq_true _ ▸ hf) hd]
      simp [hdp]

theorem step_settles_self (acc : CurvesEvalCache × Bool × List GpuEvent)
    (p : Nat × DRW_AttributeRequest) :
    slotSettled (ensure_attr_loop_step acc p).1 p := by
  by_cases hf : acc.1.final.attributes_buf p.1 = true
  · rw [step_skip acc p hf]
    exact Or.inl hf
  · have hstep : (ensure_attr_loop_step acc p).1 =
        (ensure_final_attribute acc.1 p.2 p.1).1 := by
      simp [ensure_attr_loop_step, hf]
    rw [hstep]
    cases hd : p.2.domain with
    | Point =>
        exact Or.inl (by rw [ensure_final_final_self]; simp [hd])
    | Curve =>
        exact Or.inr ⟨hd, ensure_final_proc_self acc.1 p.2 p.1⟩

theorem step_frame (acc : CurvesEvalCache × Bool × List GpuEvent)
    (p : Nat × DRW_AttributeRequest) (j : Nat) (h : j ≠ p.1) :
    (ensure_attr_loop_step acc p).1.proc_attributes_buf j =
      acc.1.proc_attributes_buf j ∧
    (ensure_attr_loop_step acc p).1.final.attributes_buf j =
      acc.1.final.attributes_buf j := by
  by_cases hf : acc.1.final.attributes_buf p.1 = true
  · rw [step_skip acc p hf]
    exact ⟨rfl, rfl⟩
  · have hstep : (ensure_attr_loop_step acc p).1 =
        (ensure_final_attribute acc.1 p.2 p.1).1 := by
      simp [ensure_attr_loop_step, hf]
    rw [hstep]
    exact ensure_final_frame acc.1 p.2 p.1 j h

theorem step_preserves_settled (acc : CurvesEvalCache × Bool × List GpuEvent)
    (p q : Nat × DRW_AttributeRequest) (h : q.1 ≠ p.1)
    (hs : slotSettled acc.1 q) : slotSettled (ensure_attr_loop_step acc p).1 q := by
  obtain ⟨h1, h2⟩ := step_frame acc p q.1 h
  rcases hs with hs | ⟨hd, hp⟩
  · exact Or.inl (h2.trans hs)
  · exact Or.inr ⟨hd, h1.trans hp⟩

theorem step_meta (acc : CurvesEvalCache × Bool × List GpuEvent)
    (p : Nat × DRW_AttributeRequest) :
    (ensure_attr_loop_step acc p).1.final.attr_used = acc.1.final.attr_used ∧
    (ensure_attr_loop_step acc p).1.final.attr_used_over_time =
      acc.1.final.attr_used_over_time := by
  by_cases hf : acc.1.final.attributes_buf p.1 = true
  · rw [step_skip acc p hf]
    exact ⟨rfl, rfl⟩
  · have hstep : (ensure_attr_loop_step acc p).1 =
        (ensure_final_attribute acc.1 p.2 p.1).1 := by
      simp [ensure_attr_loop_step, hf]
    rw [hstep]
    exact ensure_final_meta acc.1 p.2 p.1

theorem step_events_mono (acc : CurvesEvalCache × Bool × List GpuEvent)
    (p : Nat × DRW_AttributeRequest) (x : GpuEvent) (h : x ∈ acc.2.2) :
    x ∈ (ensure_attr_loop_step acc p).2.2 := by
  by_cases hf : acc.1.final.attributes_buf p.1 = true
  · rw [step_skip acc p hf]
    exact h
  · simp only [ensure_attr_loop_step, hf, if_false]
    simp only [Bool.false_eq_true, if_false, List.mem_append]
    exact Or.inl h

theorem step_process (acc : CurvesEvalCache × Bool × List GpuEvent)
    (p : Nat × DRW_AttributeRequest) (hf : acc.1.final.attributes_buf p.1 = false) :
    (ensure_attr_loop_step acc p).1.proc_attributes_buf p.1 = true ∧
    (ensure_attr_loop_step acc p).1.final.attributes_buf p.1 =
      decide (p.2.domain = AttrDomain.Point) := by
  have hstep : (ensure_attr_loop_step acc p).1 =
      (ensure_final_attribute acc.1 p.2 p.1).1 := by
    simp [ensure_attr_loop_step, hf]
  rw [hstep]
  exact ⟨ensure_final_proc_self acc.1 p.2 p.1, ensure_final_final_self acc.1 p.2 p.1⟩

theorem fold_step_frame (l : List (Nat × DRW_AttributeRequest)) :
    ∀ (acc : CurvesEvalCache × Bool × List GpuEvent) (j : Nat),
      (∀ r ∈ l, r.1 ≠ j) →
      (l.foldl ensure_attr_loop_step acc).1.proc_attributes_buf j =
        acc.1.proc_attributes_buf j ∧
      (l.foldl ensure_attr_loop_step acc).1.final.attributes_buf j =
        acc.1.final.attributes_buf j := by
  induction l with
  | nil => intro acc j _; exact ⟨rfl, rfl⟩
  | cons p rest ih =>
      intro acc j hj
      have hpj : j ≠ p.1 := fun h =>
        hj p (List.mem_cons_self p rest) (h ▸ rfl)
      obtain ⟨h1, h2⟩ := step_frame acc p j hpj
      obtain ⟨h3, h4⟩ := ih (ensure_attr_loop_step acc p) j
        (fun r hr => hj r (List.mem_cons_of_mem p hr))
      exact ⟨h3.trans h1, h4.trans h2⟩

theorem fold_step_meta (l : List (Nat × DRW_AttributeRequest)) :
    ∀ (acc : CurvesEvalCache × Bool × List GpuEvent),
      (l.foldl ensure_attr_loop_step acc).1.final.attr_used =
        acc.1.final.attr_used ∧
      (l.foldl ensure_attr_loop_step acc).1.final.attr_used_over_time =
        acc.1.final.attr_used_over_time := by
  induction l with
  | nil => intro acc; exact ⟨rfl, rfl⟩
  | cons p rest ih =>
      intro acc
      obtain ⟨h1, h2⟩ := step_meta acc p
      obtain ⟨h3, h4⟩ := ih (ensure_attr_loop_step acc p)
      exact ⟨h3.trans h1, h4.trans h2⟩

theorem fold_step_events_mono (l : List (Nat × DRW_AttributeRequest)) :
    ∀ (acc : CurvesEvalCache × Bool × List GpuEvent) (x : GpuEvent), x ∈ acc.2.2 →
      x ∈ (l.foldl ensure_attr_loop_step acc).2.2 := by
  induction l with
  | nil => intro acc x h; exact h
  | cons p rest ih =>
      intro acc x h
      exact ih (ensure_attr_loop_step acc p) x (step_events_mono acc p x h)

theorem fold_step_preserves_settled (l : List (Nat × DRW_AttributeRequest)) :
    ∀ (acc : CurvesEvalCache × Bool × List GpuEvent) (q : Nat × DRW_AttributeRequest),
      (∀ r ∈ l, r.1 ≠ q.1) → slotSettled acc.1 q →
      slotSettled (l.foldl ensure_attr_loop_step acc).1 q := by
  induction l with
  | nil => intro acc q _ hs; exact hs
  | cons p rest ih =>
      intro acc q hq hs
      exact ih (ensure_attr_loop_step acc p) q
        (fun r hr => hq r (List.mem_cons_of_mem p hr))
        (step_preserves_settled acc p q
          (fun h => hq p (List.mem_cons_self p rest) h.symm) hs)

theorem fold_step_settles (l : List (Nat × DRW_AttributeRequest)) :
    ∀ (acc : CurvesEvalCache × Bool × List GpuEvent),
      l.Pairwise (fun p q => p.1 ≠ q.1) →
      ∀ p ∈ l, slotSettled (l.foldl ensure_attr_loop_step acc).1 p := by
  induction l with
  | nil => intro acc _ p hp; cases hp
  | cons q rest ih =>
      intro acc hpw p hp
      rw [List.pairwise_cons] at hpw
      rcases List.mem_cons.mp hp with rfl | hp2
      · exact fold_step_preserves_settled rest (ensure_attr_loop_step acc p) p
          (fun r hr h => (hpw.1 r hr) h.symm)
          (step_settles_self acc p)
      · exact ih (ensure_attr_loop_step acc q) hpw.2 p hp2

theorem fold_step_all_settled_noop (l : List (Nat × DRW_AttributeRequest)) :
    ∀ (acc : CurvesEvalCache × Bool × List GpuEvent),
      (∀ p ∈ l, slotSettled acc.1 p) →
      l.foldl ensure_attr_loop_step acc = acc := by
  induction l with
  | nil => intro acc _; rfl
  | cons p rest ih =>
      intro acc hs
      have h1 : ensure_attr_loop_step acc p = acc :=
        step_settled_noop acc p (hs p (List.mem_cons_self p rest))
      simp only [List.foldl_cons, h1]
      exact ih acc (fun q hq => hs q (List.mem_cons_of_mem p hq))

theorem fold_step_process_all (l : List (Nat × DRW_AttributeRequest)) :
    ∀ (acc : CurvesEvalCache × Bool × List GpuEvent),
      l.Pairwise (fun p q => p.1 ≠ q.1) →
      (∀ p ∈ l, acc.1.final.attributes_buf p.1 = false) →
      ∀ p ∈ l,
        (l.foldl ensure_attr_loop_step acc).1.proc_attributes_buf p.1 = true ∧
        (l.foldl ensure_attr_loop_step acc).1.final.attributes_buf p.1 =
          decide (p.2.domain = AttrDomain.Point) := by
  induction l with
  | nil => intro acc _ _ p hp; cases hp
  | cons q rest ih =>
      intro acc hpw hf p hp
      rw [List.pairwise_cons] at hpw
      rcases List.mem_cons.mp hp with rfl | hp2
      · obtain ⟨h1, h2⟩ := step_process acc p (hf p (List.mem_cons_self p rest))
        obtain ⟨h3, h4⟩ := fold_step_frame rest (ensure_attr_loop_step acc p) p.1
          (fun r hr h => (hpw.1 r hr) h.symm)
        exact ⟨h3.trans h1, h4.trans h2⟩
      · refine ih (ensure_attr_loop_step acc q) hpw.2 (fun r hr => ?_) p hp2
        have hrq : r.1 ≠ q.1 := fun h => (hpw.1 r hr) h.symm
        exact (step_frame acc q r.1 hrq).2.trans (hf r (List.mem_cons_of_mem q hr))

theorem mem_enumFrom_bounds {β : Type} (l : List β) :
    ∀ (n : Nat) (p : Nat × β), p ∈ List.enumFrom n l → n ≤ p.1 ∧ p.1 < n + l.length := by
  induction l with
  | nil => intro n p hp; cases hp
  | cons a rest ih =>
      intro n p hp
      rcases List.mem_cons.mp hp with rfl | hp2
      · simp
      · obtain ⟨h1, h2⟩ := ih (n + 1) p hp2
        simp only [List.length_cons]
        omega

theorem enumFrom_pairwise_ne {β : Type} (l : List β) :
    ∀ n, (List.enumFrom n l).Pairwise (fun p q => p.1 ≠ q.1) := by
  induction l with
  | nil => intro n; exact List.Pairwise.nil
  | cons a rest ih =>
      intro n
      rw [List.enumFrom_cons, List.pairwise_cons]
      refine ⟨fun q hq => ?_, ih (n + 1)⟩
      have := (mem_enumFrom_bounds rest (n + 1) q hq).1
      omega

theorem enum_pairwise_ne {β : Type} (l : List β) :
    l.enum.Pairwise (fun p q => p.1 ≠ q.1) := by
  rw [List.enum]
  exact enumFrom_pairwise_ne l 0

theorem mem_enum_lt {β : Type} (l : List β) (p : Nat × β) (hp : p ∈ l.enum) :
    p.1 < l.length := by
  have := (mem_enumFrom_bounds l 0 p (by rwa [List.enum] at hp)).2
  omega

theorem discard_pair_self (acc : CurvesEvalCache × List GpuEvent) (i : Nat) :
    (discard_slot_pair acc i).1.final.attributes_buf i = false ∧
    (discard_slot_pair acc i).1.proc_attributes_buf i = false := by
  simp only [discard_slot_pair]
  by_cases hf : acc.1.final.attributes_buf i <;>
    by_cases hp : acc.1.proc_attributes_buf i <;>
    simp [hf, hp, setSlot]

theorem discard_pair_frame (acc : CurvesEvalCache × List GpuEvent) (i j : Nat)
    (h : j ≠ i) :
    (discard_slot_pair acc i).1.final.attributes_buf j =
      acc.1.final.attributes_buf j ∧
    (discard_slot_pair acc i).1.proc_attributes_buf j =
      acc.1.proc_attributes_buf j := by
  simp only [discard_slot_pair]
  by_cases hf : acc.1.final.attributes_buf i <;>
    by_cases hp : acc.1.proc_attributes_buf i <;>
    simp [hf, hp, setSlot, h]

theorem discard_pair_meta (acc : CurvesEvalCache × List GpuEvent) (i : Nat) :
    (discard_slot_pair acc i).1.final.attr_used = acc.1.final.attr_used ∧
    (discard_slot_pair acc i).1.final.attr_used_over_time =
      acc.1.final.attr_used_over_time := by
  simp only [discard_slot_pair]
  by_cases hf : acc.1.final.attributes_buf i <;>
    by_cases hp : acc.1.proc_attributes_buf i <;>
    simp [hf, hp]

theorem discard_pair_events (acc : CurvesEvalCache × List GpuEvent) (i : Nat) :
    (acc.1.final.attributes_buf i = true →
      GpuEvent.discardFinalAttr i ∈ (discard_slot_pair acc i).2) ∧
    (acc.1.proc_attributes_buf i = true →
      GpuEvent.discardProcAttr i ∈ (discard_slot_pair acc i).2) := by
  simp only [discard_slot_pair]
  by_cases hf : acc.1.final.attributes_buf i <;>
    by_cases hp : acc.1.proc_attributes_buf i <;>
    simp [hf, hp, setSlot]

theorem discard_pair_events_mono (acc : CurvesEvalCache × List GpuEvent) (i : Nat)
    (x : GpuEvent) (h : x ∈ acc.2) : x ∈ (discard_slot_pair acc i).2 := by
  simp only [discard_slot_pair]
  by_cases hf : acc.1.final.attributes_buf i <;>
    by_cases hp : acc.1.proc_attributes_buf i <;>
    simp [hf, hp, h]

theorem fold_discard_frame (l : List Nat) :
    ∀ (acc : CurvesEvalCache × List GpuEvent) (j : Nat), j ∉ l →
      (l.foldl discard_slot_pair acc).1.final.attributes_buf j =
        acc.1.final.attributes_buf j ∧
      (l.foldl discard_slot_pair acc).1.proc_attributes_buf j =
        acc.1.proc_attributes_buf j := by
  induction l with
  | nil => intro acc j _; exact ⟨rfl, rfl⟩
  | cons i rest ih =>
      intro acc j hj
      have hji : j ≠ i := fun h => hj (h ▸ List.mem_cons_self i rest)
      obtain ⟨h1, h2⟩ := discard_pair_frame acc i j hji
      obtain ⟨h3, h4⟩ := ih (discard_slot_pair acc i) j
        (fun h => hj (List.mem_cons_of_mem i h))
      exact ⟨h3.trans h1, h4.trans h2⟩

theorem fold_discard_meta (l : List Nat) :
    ∀ (acc : CurvesEvalCache × List GpuEvent),
      (l.foldl discard_slot_pair acc).1.final.attr_used = acc.1.final.attr_used ∧
      (l.foldl discard_slot_pair acc).1.final.attr_used_over_time =
        acc.1.final.attr_used_over_time := by
  induction l with
  | nil => intro acc; exact ⟨rfl, rfl⟩
  | cons i rest ih =>
      intro acc
      obtain ⟨h1, h2⟩ := discard_pair_meta acc i
      obtain ⟨h3, h4⟩ := ih (discard_slot_pair acc i)
      exact ⟨h3.trans h1, h4.trans h2⟩

theorem fold_discard_events_mono (l : List Nat) :
    ∀ (acc : CurvesEvalCache × List GpuEvent) (x : GpuEvent), x ∈ acc.2 →
      x ∈ (l.foldl discard_slot_pair acc).2 := by
  induction l with
  | nil => intro acc x h; exact h
  | cons i rest ih =>
      intro acc x h
      exact ih (discard_slot_pair acc i) x (discard_pair_events_mono acc i x h)

theorem fold_discard_clears (l : List Nat) :
    ∀ (acc : CurvesEvalCache × List GpuEvent), l.Pairwise (· ≠ ·) →
      ∀ i ∈ l, (l.foldl discard_slot_pair acc).1.final.attributes_buf i = false ∧
        (l.foldl discard_slot_pair acc).1.proc_attributes_buf i = false := by
  induction l with
  | nil => intro acc _ i hi; cases hi
  | cons k rest ih =>
      intro acc hpw i hi
      rw [List.pairwise_cons] at hpw
      rcases List.mem_cons.mp hi with rfl | hi2
      · obtain ⟨h1, h2⟩ := discard_pair_self acc i
        obtain ⟨h3, h4⟩ := fold_discard_frame rest (discard_slot_pair acc i) i
          (fun h => (hpw.1 i h) rfl)
        exact ⟨h3.trans h1, h4.trans h2⟩
      · exact ih (discard_slot_pair acc k) hpw.2 i hi2

theorem fold_discard_events (l : List Nat) :
    ∀ (acc : CurvesEvalCache × List GpuEvent), l.Pairwise (· ≠ ·) →
      ∀ i ∈ l,
        (acc.1.final.attributes_buf i = true →
          GpuEvent.discardFinalAttr i ∈ (l.foldl discard_slot_pair acc).2) ∧
        (acc.1.proc_attributes_buf i = true →
          GpuEvent.discardProcAttr i ∈ (l.foldl discard_slot_pair acc).2) := by
  induction l with
  | nil => intro acc _ i hi; cases hi
  | cons k rest ih =>
      intro acc hpw i hi
      rw [List.pairwise_cons] at hpw
      rcases List.mem_cons.mp hi with rfl | hi2
      · obtain ⟨h1, h2⟩ := discard_pair_events acc i
        exact ⟨fun h => fold_discard_events_mono rest _ _ (h1 h),
          fun h => fold_discard_events_mono rest _ _ (h2 h)⟩
      · have hik : i ≠ k := fun h => (hpw.1 i hi2) h.symm
        obtain ⟨hf, hp⟩ := discard_pair_frame acc k i hik
        obtain ⟨g1, g2⟩ := ih (discard_slot_pair acc k) hpw.2 i hi2
        exact ⟨fun h => g1 (hf.trans h), fun h => g2 (hp.trans h)⟩

theorem discard_all_clears (e : CurvesEvalCache) (i : Nat) (hi : i < GPU_MAX_ATTR) :
    (discard_all_attr_slots e).1.final.attributes_buf i = false ∧
    (discard_all_attr_slots e).1.proc_attributes_buf i = false :=
  fold_discard_clears (List.range GPU_MAX_ATTR) (e, [])
    (List.nodup_range GPU_MAX_ATTR) i (List.mem_range.mpr hi)

theorem discard_all_events (e : CurvesEvalCache) (i : Nat) (hi : i < GPU_MAX_ATTR) :
    (e.final.attributes_buf i = true →
      GpuEvent.discardFinalAttr i ∈ (discard_all_attr_slots e).2) ∧
    (e.proc_attributes_buf i = true →
      GpuEvent.discardProcAttr i ∈ (discard_all_attr_slots e).2) :=
  fold_discard_events (List.range GPU_MAX_ATTR) (e, [])
    (List.nodup_range GPU_MAX_ATTR) i (List.mem_range.mpr hi)

theorem discard_all_meta (e : CurvesEvalCache) :
    (discard_all_attr_slots e).1.final.attr_used = e.final.attr_used ∧
    (discard_all_attr_slots e).1.final.attr_used_over_time =
      e.final.attr_used_over_time :=
  fold_discard_meta (List.range GPU_MAX_ATTR) (e, [])

theorem reconcile_of_overlap (cache : CurvesEvalCache) (needed : DRW_Attributes)
    (h : drw_attributes_overlap cache.final.attr_used needed = true) :
    ensure_attributes_reconcile cache needed = (cache, []) := by
  simp [ensure_attributes_reconcile, h]

theorem reconcile_attr_used (cache : CurvesEvalCache) (needed : DRW_Attributes) :
    (ensure_attributes_reconcile cache needed).1.final.attr_used =
      (if drw_attributes_overlap cache.final.attr_used needed = true
        then cache.final.attr_used
        else drw_attributes_merge cache.final.attr_used needed) := by
  by_cases h : drw_attributes_overlap cache.final.attr_used needed = true
  · rw [reconcile_of_overlap cache needed h, if_pos h]
  · simp only [ensure_attributes_reconcile, if_neg h,
      if_pos (fun hc => h hc)]
    rw [(discard_all_meta cache).1]

theorem reconcile_over_time (cache : CurvesEvalCache) (needed : DRW_Attributes) :
    (ensure_attributes_reconcile cache needed).1.final.attr_used_over_time =
      cache.final.attr_used_over_time := by
  by_cases h : drw_attributes_overlap cache.final.attr_used needed = true
  · rw [reconcile_of_overlap cache needed h]
  · simp only [ensure_attributes_reconcile, if_pos (fun hc => h hc)]
    exact (discard_all_meta cache).2

theorem reconcile_slots_cleared (cache : CurvesEvalCache) (needed : DRW_Attributes)
    (h : ¬ drw_attributes_overlap cache.final.attr_used needed = true)
    (i : Nat) (hi : i < GPU_MAX_ATTR) :
    (ensure_attributes_reconcile cache needed).1.final.attributes_buf i = false ∧
    (ensure_attributes_reconcile cache needed).1.proc_attributes_buf i = false := by
  simp only [ensure_attributes_reconcile, if_pos (fun hc => h hc)]
  exact discard_all_clears cache i hi

theorem reconcile_events (cache : CurvesEvalCache) (needed : DRW_Attributes)
    (h : ¬ drw_attributes_overlap cache.final.attr_used needed = true)
    (i : Nat) (hi : i < GPU_MAX_ATTR) :
    (cache.final.attributes_buf i = true →
      GpuEvent.discardFinalAttr i ∈ (ensure_attributes_reconcile cache needed).2) ∧
    (cache.proc_attributes_buf i = true →
      GpuEvent.discardProcAttr i ∈ (ensure_attributes_reconcile cache needed).2) := by
  simp only [ensure_attributes_reconcile, if_pos (fun hc => h hc)]
  exact discard_all_events cache i hi

theorem ensure_attributes_attr_used (cache : CurvesEvalCache)
    (needed : DRW_Attributes) :
    (ensure_attributes cache needed).1.final.attr_used =
      (ensure_attributes_reconcile cache needed).1.final.attr_used := by
  simp only [ensure_attributes]
  rw [(fold_step_meta _ _).1]
  rfl

theorem ensure_attributes_over_time_out (cache : CurvesEvalCache)
    (needed : DRW_Attributes) :
    (ensure_attributes cache needed).1.final.attr_used_over_time =
      drw_attributes_merge cache.final.attr_used_over_time needed := by
  simp only [ensure_attributes]
  rw [(fold_step_meta _ _).2]
  simp only [ensure_attributes_over_time]
  rw [reconcile_over_time]

theorem ensure_attributes_settled (cache : CurvesEvalCache)
    (needed : DRW_Attributes) :
    ∀ p ∈ (ensure_attributes cache needed).1.final.attr_used.requests.enum,
      slotSettled (ensure_attributes cache needed).1 p := by
  intro p hp
  rw [ensure_attributes_attr_used] at hp
  have hlist :
      (ensure_attributes_reconcile cache needed).1.final.attr_used.requests.enum =
      ((ensure_attributes_over_time (ensure_attributes_reconcile cache needed)
        needed).1.final.attr_used.requests.enum) := rfl
  rw [hlist] at hp
  exact fold_step_settles _ _ (enum_pairwise_ne _) p hp

theorem ensure_attributes_overlap_out (cache : CurvesEvalCache)
    (needed : DRW_Attributes) :
    drw_attributes_overlap (ensure_attributes cache needed).1.final.attr_used
      needed = true := by
  rw [ensure_attributes_attr_used, reconcile_attr_used]
  by_cases h : drw_attributes_overlap cache.final.attr_used needed = true
  · rwa [if_pos h]
  · rw [if_neg h]
    exact overlap_merge _ _

theorem ensure_attributes_noop (c1 : CurvesEvalCache) (needed : DRW_Attributes)
    (hover : drw_attributes_overlap c1.final.attr_used needed = true)
    (hmerge : drw_attributes_merge c1.final.attr_used_over_time needed =
      c1.final.attr_used_over_time)
    (hsettled : ∀ p ∈ c1.final.attr_used.requests.enum, slotSettled c1 p) :
    ensure_attributes c1 needed = (c1, false, []) := by
  have hrec : ensure_attributes_reconcile c1 needed = (c1, []) :=
    reconcile_of_overlap c1 needed hover
  have hot : ensure_attributes_over_time (c1, []) needed = (c1, []) := by
    obtain ⟨p1, p2, p3, p4, p5, fin, p7, p8⟩ := c1
    obtain ⟨q1, q2, q3, q4, q5, q6, q7, q8, q9⟩ := fin
    simp only [ensure_attributes_over_time] at hmerge ⊢
    rw [hmerge]
  simp only [ensure_attributes, hrec, hot]
  exact fold_step_all_settled_noop _ _ hsettled

theorem ensure_attributes_idem (cache : CurvesEvalCache) (needed : DRW_Attributes) :
    ensure_attributes (ensure_attributes cache needed).1 needed =
      ((ensure_attributes cache needed).1, false, []) := by
  refine ensure_attributes_noop _ needed (ensure_attributes_overlap_out cache needed)
    ?_ (ensure_attributes_settled cache needed)
  rw [ensure_attributes_over_time_out cache needed, merge_idem]

theorem ensure_attributes_events_mono (cache : CurvesEvalCache)
    (needed : DRW_Attributes) (x : GpuEvent)
    (hx : x ∈ (ensure_attributes_reconcile cache needed).2) :
    x ∈ (ensure_attributes cache needed).2.2 := by
  simp only [ensure_attributes]
  exact fold_step_events_mono _ _ x hx

theorem ensure_attributes_rematerialize (cache : CurvesEvalCache)
    (needed : DRW_Attributes)
    (hno : ¬ drw_attributes_overlap cache.final.attr_used needed = true)
    (hnum : (drw_attributes_merge cache.final.attr_used needed).requests.length ≤
      GPU_MAX_ATTR) :
    ∀ p ∈ (ensure_attributes cache needed).1.final.attr_used.requests.enum,
      (ensure_attributes cache needed).1.proc_attributes_buf p.1 = true ∧
      (ensure_attributes cache needed).1.final.attributes_buf p.1 =
        decide (p.2.domain = AttrDomain.Point) := by
  have hused : (ensure_attributes_reconcile cache needed).1.final.attr_used =
      drw_attributes_merge cache.final.attr_used needed := by
    rw [reconcile_attr_used, if_neg hno]
  intro p hp
  rw [ensure_attributes_attr_used] at hp
  have hfalse : ∀ q ∈ (ensure_attributes_reconcile cache
        needed).1.final.attr_used.requests.enum,
      (ensure_attributes_reconcile cache needed).1.final.attributes_buf q.1 =
        false := by
    intro q hq
    have hlt := mem_enum_lt _ q hq
    rw [hused] at hlt
    exact (reconcile_slots_cleared cache needed hno q.1 (lt_of_lt_of_le hlt hnum)).1
  exact fold_step_process_all _ _ (enum_pairwise_ne _) hfalse p hp

/-- C3: attribute reconciliation.  When the newly derived needed set is not
a subset of the materialized set, ALL attribute slots of both tiers that
held buffers are discarded (a discard event is logged for every occupied
control-point and every occupied final slot, not only for the missing
attribute), the needed set is merged into the materialized set, and every
request of the resulting set is rematerialized (point-domain requests get a
final buffer, curve-domain requests a control-point buffer).  Running
reconciliation twice in a row with the same needed set allocates only on
the first call: the second call returns the unchanged state with an empty
event log, discarding and allocating nothing. -/
theorem C3_attribute_reconciliation (cache : CurvesEvalCache)
    (needed : DRW_Attributes)
    (hnum : (drw_attributes_merge cache.final.attr_used needed).requests.length ≤
      GPU_MAX_ATTR) :
    (¬ drw_attributes_overlap cache.final.attr_used needed = true →
      (ensure_attributes cache needed).1.final.attr_used =
        drw_attributes_merge cache.final.attr_used needed ∧
      (∀ i, i < GPU_MAX_ATTR →
        (cache.final.attributes_buf i = true →
          GpuEvent.discardFinalAttr i ∈ (ensure_attributes cache needed).2.2) ∧
        (cache.proc_attributes_buf i = true →
          GpuEvent.discardProcAttr i ∈ (ensure_attributes cache needed).2.2)) ∧
      (∀ p ∈ (ensure_attributes cache needed).1.final.attr_used.requests.enum,
        (p.2.domain = AttrDomain.Point →
          (ensure_attributes cache needed).1.final.attributes_buf p.1 = true) ∧
        (p.2.domain = AttrDomain.Curve →
          (ensure_attributes cache needed).1.proc_attributes_buf p.1 = true))) ∧
    ensure_attributes (ensure_attributes cache needed).1 needed =
      ((ensure_attributes cache needed).1, false, []) := by
  refine ⟨fun hno => ⟨?_, ?_, ?_⟩, ensure_attributes_idem cache needed⟩
  · rw [ensure_attributes_attr_used, reconcile_attr_used, if_neg hno]
  · intro i hi
    obtain ⟨h1, h2⟩ := reconcile_events cache needed hno i hi
    exact ⟨fun h => ensure_attributes_events_mono cache needed _ (h1 h),
      fun h => ensure_attributes_events_mono cache needed _ (h2 h)⟩
  · intro p hp
    obtain ⟨h1, h2⟩ := ensure_attributes_rematerialize cache needed hno hnum p hp
    refine ⟨fun hd => ?_, fun _ => h1⟩
    rw [h2, hd]
    simp

/-- Witness for C3: reconciling the empty cache against a single
point-domain request. -/
theorem C3_attribute_reconciliation_witness :
    (drw_attributes_merge emptyEvalCache.final.attr_used
      ⟨[⟨"b", 0, 0, AttrDomain.Point⟩]⟩).requests.length ≤ GPU_MAX_ATTR ∧
    ¬ drw_attributes_overlap emptyEvalCache.final.attr_used
      ⟨[⟨"b", 0, 0, AttrDomain.Point⟩]⟩ = true ∧
    (ensure_attributes emptyEvalCache
        ⟨[⟨"b", 0, 0, AttrDomain.Point⟩]⟩).1.final.attr_used =
      drw_attributes_merge emptyEvalCache.final.attr_used
        ⟨[⟨"b", 0, 0, AttrDomain.Point⟩]⟩ ∧
    ensure_attributes (ensure_attributes emptyEvalCache
        ⟨[⟨"b", 0, 0, AttrDomain.Point⟩]⟩).1
        ⟨[⟨"b", 0, 0, AttrDomain.Point⟩]⟩ =
      ((ensure_attributes emptyEvalCache
        ⟨[⟨"b", 0, 0, AttrDomain.Point⟩]⟩).1, false, []) := by
  have hnum : (drw_attributes_merge emptyEvalCache.final.attr_used
      ⟨[⟨"b", 0, 0, AttrDomain.Point⟩]⟩).requests.length ≤ GPU_MAX_ATTR := by decide
  have hno : ¬ drw_attributes_overlap emptyEvalCache.final.attr_used
      ⟨[⟨"b", 0, 0, AttrDomain.Point⟩]⟩ = true := by decide
  have h := C3_attribute_reconciliation emptyEvalCache
    ⟨[⟨"b", 0, 0, AttrDomain.Point⟩]⟩ hnum
  exact ⟨hnum, hno, (h.1 hno).1, h.2⟩

theorem enumFrom_find?_none {β : Type} (q : β → Bool) (l : List β) :
    ∀ n, ((List.enumFrom n l).find? (fun p => q p.2) = none) ↔
      l.find? q = none := by
  induction l with
  | nil => intro n; simp
  | cons a rest ih =>
      intro n
      by_cases hq : q a
      · simp [List.find?_cons, hq]
      · simp only [List.enumFrom_cons, List.find?_cons, hq]
        simpa using ih (n + 1)

/-- C10: the evaluated-attribute lookup.  With a name absent from both the
geometry's attribute store and the materialized request set, the function
returns a null buffer pointer and sets the is-point-domain output to
false; when the name is found among the materialized requests (at index
`i`), a point-domain request yields the final-tier slot `i` with
`is_point_domain = true` and a curve-domain request yields the
control-point slot `i` with `is_point_domain = false`. -/
theorem C10_texture_for_evaluated_attribute (store : List AttrStoreEntry)
    (e : CurvesEvalCache) (name : String) :
    (store.find? (fun a => a.name == name) = none →
      e.final.attr_used.requests.find? (fun r => r.attribute_name == name) = none →
      (DRW_curves_texture_for_evaluated_attribute store e name).1 = none ∧
      (DRW_curves_texture_for_evaluated_attribute store e name).2.1 = false) ∧
    (∀ i r, ((request_attribute store e name).final.attr_used.requests.enum.find?
        (fun p => p.2.attribute_name == name) = some (i, r)) →
      (r.domain = AttrDomain.Point →
        DRW_curves_texture_for_evaluated_attribute store e name =
          (some (TexRef.finalAttr i), true, request_attribute store e name)) ∧
      (r.domain = AttrDomain.Curve →
        DRW_curves_texture_for_evaluated_attribute store e name =
          (some (TexRef.procAttr i), false, request_attribute store e name))) := by
  constructor
  · intro hstore hreq
    have he1 : request_attribute store e name = e := by
      simp [request_attribute, hstore]
    have hfind : ((request_attribute store e
        name).final.attr_used.requests.enum.find?
        (fun p => p.2.attribute_name == name)) = none := by
      rw [he1, List.enum]
      exact (enumFrom_find?_none _ _ 0).mpr hreq
    simp [DRW_curves_texture_for_evaluated_attribute, hfind]
  · intro i r hfind
    constructor <;> intro hd <;>
      simp [DRW_curves_texture_for_evaluated_attribute, hfind, hd]

/-- Witness for C10: a store holding one curve-domain attribute "a"; the
lookup of "x" misses, the lookup of "a" yields the control-point slot 0. -/
theorem C10_texture_for_evaluated_attribute_witness :
    ((c10Store : List AttrStoreEntry).find?
      (fun a => a.name == "x") = none) ∧
    (emptyEvalCache.final.attr_used.requests.find?
      (fun r => r.attribute_name == "x") = none) ∧
    (DRW_curves_texture_for_evaluated_attribute c10Store
      emptyEvalCache "x").1 = none ∧
    (DRW_curves_texture_for_evaluated_attribute c10Store
      emptyEvalCache "x").2.1 = false ∧
    ((request_attribute c10Store emptyEvalCache
        "a").final.attr_used.requests.enum.find?
      (fun p => p.2.attribute_name == "a") =
        some (0, ⟨"a", 0, 0, AttrDomain.Curve⟩)) ∧
    DRW_curves_texture_for_evaluated_attribute c10Store
        emptyEvalCache "a" =
      (some (TexRef.procAttr 0), false,
        request_attribute c10Store emptyEvalCache "a") := by
  have h1 : ((c10Store : List AttrStoreEntry).find?
      (fun a => a.name == "x") = none) := by decide
  have h2 : (emptyEvalCache.final.attr_used.requests.find?
      (fun r => r.attribute_name == "x") = none) := by decide
  have h5 : ((request_attribute c10Store emptyEvalCache
        "a").final.attr_used.requests.enum.find?
      (fun p => p.2.attribute_name == "a") =
        some (0, ⟨"a", 0, 0, AttrDomain.Curve⟩)) := by decide
  obtain ⟨hm1, hm2⟩ := (C10_texture_for_evaluated_attribute
    c10Store emptyEvalCache "x").1 h1 h2
  have hhit := ((C10_texture_for_evaluated_attribute
    c10Store emptyEvalCache "a").2 0
    ⟨"a", 0, 0, AttrDomain.Curve⟩ h5).2 rfl
  exact ⟨h1, h2, hm1, hm2, h5, hhit⟩

end CurvesDraw
